import Mathlib

/-! Verification development for the LAMDA spectroscopic-data parser in
`src/lamda.rs`.  Strings are modelled as lists of characters (`Str`); on the
ASCII inputs the format uses, Rust byte offsets coincide with character
offsets.  Rust `f64` values are modelled abstractly by their validated
literal text (`F64`), because no property observed here compares
floating-point values — only parse success or failure matters.  A result of
`none` models a Rust panic (`panic!`, `expect`, `unwrap`); `some (.error e)`
and `some (.ok v)` model `Err e` and `Ok v`. -/

abbrev Str := List Char

/-- The Rust `char::is_whitespace` predicate (the Unicode White_Space set),
used by `str::trim` and `str::split_whitespace`. -/
def isRustWs (c : Char) : Bool :=
  c == ' ' || c == '\t' || c == '\n' || c == '\r' ||
  c.toNat == 0x0b || c.toNat == 0x0c || c.toNat == 0x85 || c.toNat == 0xa0 ||
  c.toNat == 0x1680 || (0x2000 ≤ c.toNat && c.toNat ≤ 0x200a) ||
  c.toNat == 0x2028 || c.toNat == 0x2029 || c.toNat == 0x202f ||
  c.toNat == 0x205f || c.toNat == 0x3000

/-- Drop the longest suffix of characters satisfying `p`. -/
def dropTrailing (p : Char → Bool) (s : Str) : Str :=
  (s.reverse.dropWhile p).reverse

/-- Rust `str::trim_matches(p)`: strip matching characters from both ends. -/
def trimMatches (p : Char → Bool) (s : Str) : Str :=
  dropTrailing p (s.dropWhile p)

/-- Rust `str::trim`. -/
def rustTrim (s : Str) : Str := trimMatches isRustWs s

/-- Worker for `splitWs`: `cur` is the current token, reversed. -/
def splitWsAux : Str → Str → List Str
  | [], cur => if cur.isEmpty then [] else [cur.reverse]
  | c :: cs, cur =>
    if isRustWs c then
      if cur.isEmpty then splitWsAux cs []
      else cur.reverse :: splitWsAux cs []
    else splitWsAux cs (c :: cur)

/-- Rust `str::split_whitespace`: the list of maximal non-whitespace runs. -/
def splitWs (s : Str) : List Str := splitWsAux s []

/-- Split at every occurrence of `sep` (the separators are not kept).
An empty input yields one empty piece, as Rust `str::split` does. -/
def splitOnChar (sep : Char) : Str → List Str
  | [] => [[]]
  | c :: cs =>
    let r := splitOnChar sep cs
    if c == sep then [] :: r
    else
      match r with
      | [] => [[c]]
      | t :: ts => (c :: t) :: ts

/-- Rust `str::split_once(' ')`: split at the first space, if any. -/
def splitOnceSpace : Str → Option (Str × Str)
  | [] => none
  | c :: cs =>
    if c == ' ' then some ([], cs)
    else
      match splitOnceSpace cs with
      | none => none
      | some (a, b) => some (c :: a, b)

/-- Rust `str::find(pat)`: index of the first occurrence of `pat` in `s`
(the empty pattern matches at index 0, as in Rust). -/
def findSub (s pat : Str) : Option Nat :=
  if pat.isPrefixOf s then some 0
  else
    match s with
    | [] => none
    | _ :: cs => (findSub cs pat).map (· + 1)

/-- Strip one trailing carriage return, as the Rust `Lines` iterator does to
each piece. -/
def stripTrailingCr (s : Str) : Str :=
  if s.getLast? == some '\r' then s.dropLast else s

/-- Rust `str::lines()`: split on newline with the trailing empty piece of a
terminal newline removed, and a trailing `\r` stripped from each line. -/
def rustLines (s : Str) : List Str :=
  match s with
  | [] => []
  | _ =>
    let ps := splitOnChar '\n' s
    let ps := if s.getLast? == some '\n' then ps.dropLast else ps
    ps.map stripTrailingCr

/-- Rust `Iterator::enumerate`, generalised to start at index `k`. -/
def enumFrom (k : Nat) : List Str → List (Nat × Str)
  | [] => []
  | s :: ss => (k, s) :: enumFrom (k + 1) ss

/-! ## Numeric literal parsing -/

def allDigits (s : Str) : Bool := s.all (fun c => c.isDigit)

def digitsVal (s : Str) : Nat :=
  s.foldl (fun a c => a * 10 + (c.toNat - 48)) 0

/-- Digits (no sign) parsed as a `u32`, `none` on empty, non-digit or
overflow. -/
def parseU32core (s : Str) : Option Nat :=
  if !s.isEmpty && allDigits s then
    if digitsVal s < 2 ^ 32 then some (digitsVal s) else none
  else none

/-- Rust `u32::from_str`: an optional leading `+` then decimal digits;
a `-` sign, emptiness, other characters, or overflow all fail. -/
def parseU32 (s : Str) : Option Nat :=
  match s with
  | '+' :: rest => parseU32core rest
  | _ => parseU32core s

def toLowerStr (s : Str) : Str := s.map Char.toLower

def stripSign : Str → Str
  | '+' :: r => r
  | '-' :: r => r
  | r => r

/-- Split at the first `e`/`E`, returning the mantissa part and, when an
exponent marker is present, the text after it. -/
def splitAtExpChar : Str → Str × Option Str
  | [] => ([], none)
  | c :: cs =>
    if c == 'e' || c == 'E' then ([], some cs)
    else
      let (m, e) := splitAtExpChar cs
      (c :: m, e)

/-- A float mantissa: decimal digits with at most one point and at least one
digit overall. -/
def validMantissa (m : Str) : Bool :=
  match splitOnChar '.' m with
  | [d] => !d.isEmpty && allDigits d
  | [d1, d2] => (!d1.isEmpty || !d2.isEmpty) && allDigits d1 && allDigits d2
  | _ => false

def validExpPart (e : Str) : Bool :=
  let e' := stripSign e
  !e'.isEmpty && allDigits e'

/-- The Rust `f64::from_str` grammar: optional sign, then `inf`, `infinity`
or `nan` (case-insensitive) or a decimal mantissa with optional exponent. -/
def isValidF64 (s : Str) : Bool :=
  let body := stripSign s
  let low := toLowerStr body
  if low == ("inf".toList) || low == ("infinity".toList) || low == ("nan".toList) then
    true
  else
    match splitAtExpChar body with
    | (m, none) => validMantissa m
    | (m, some e) => validMantissa m && validExpPart e

/-- An `f64` value, modelled by the literal it was parsed from: the claims
verified here depend only on parse success, never on float arithmetic. -/
structure F64 where
  lit : Str
deriving DecidableEq, Repr

/-- Rust `str::parse::<f64>()`, up to the `F64` literal model. -/
def parseF64 (s : Str) : Option F64 :=
  if isValidF64 s then some ⟨s⟩ else none

deriving instance DecidableEq for Except

/-! ## Error taxonomy (`ParseError` in `lamda.rs`) -/

inductive ParseError where
  | NotEnoughInput (line_number : Nat)
  | WrongCommentFormat (line_number : Nat) (line : Str) (note : Str)
  | MissingField (line_number : Nat) (line : Str) (note : Str)
  | NotFloat (line_number : Nat) (line : Str) (note : Str)
  | NotInt (line_number : Nat) (line : Str) (note : Str)
  | UnknownItem (line_number : Nat) (column : Nat) (value_width : Nat)
      (line : Str) (note : Str)
  | UnknownCollisionPartner (line_number : Nat) (line : Str) (note : Str)
deriving DecidableEq, Repr

/-! ## Field identities and their display strings -/

inductive ExpectedFieldValue where
  | Integer
  | Float
deriving DecidableEq, Repr

/-- `impl Display for ExpectedFieldValue`. -/
def ExpectedFieldValue.display : ExpectedFieldValue → Str
  | .Integer => "integer".toList
  | .Float => ("floating point number".toList)

inductive EnergyLevelField where
  | Level
  | Energy
  | StatisticalWeight
deriving DecidableEq, Repr

/-- The `as usize` ordinal of the field discriminant. -/
def EnergyLevelField.idx : EnergyLevelField → Nat
  | .Level => 0
  | .Energy => 1
  | .StatisticalWeight => 2

/-- `impl Display for EnergyLevelField`. -/
def EnergyLevelField.display : EnergyLevelField → Str
  | .Level => "level".toList
  | .Energy => ("energy [cm-1]".toList)
  | .StatisticalWeight => ("statistical weight".toList)

inductive RadiativeTransitionField where
  | Transition
  | UpperLevel
  | LowerLevel
  | SpontaneousDecayRate
deriving DecidableEq, Repr

def RadiativeTransitionField.idx : RadiativeTransitionField → Nat
  | .Transition => 0
  | .UpperLevel => 1
  | .LowerLevel => 2
  | .SpontaneousDecayRate => 3

/-- `impl Display for RadiativeTransitionField`. -/
def RadiativeTransitionField.display : RadiativeTransitionField → Str
  | .Transition => "transition".toList
  | .UpperLevel => ("upper level".toList)
  | .LowerLevel => ("lower level".toList)
  | .SpontaneousDecayRate => ("spontaneous decay rate [s-1]".toList)

inductive CollisionalRatesField where
  | Transition
  | UpperLevel
  | LowerLevel
  | RateCoefficients
deriving DecidableEq, Repr

def CollisionalRatesField.idx : CollisionalRatesField → Nat
  | .Transition => 0
  | .UpperLevel => 1
  | .LowerLevel => 2
  | .RateCoefficients => 3

/-- `impl Display for CollisionalRatesField`. -/
def CollisionalRatesField.display : CollisionalRatesField → Str
  | .Transition => "transition".toList
  | .UpperLevel => ("upper level".toList)
  | .LowerLevel => ("lower level".toList)
  | .RateCoefficients => ("rate coefficients [cm3 s-1]".toList)

/-- `SplittedFieldParseError<F>` from `lamda.rs`. -/
inductive SplittedFieldParseError (F : Type) where
  | MissingField (field : F) (expected : ExpectedFieldValue)
  | UnknownFormat (field : F) (value : Str) (expected : ExpectedFieldValue)
deriving DecidableEq, Repr

/-! ## Format-string notes built by the orchestrator -/

/-- `format!("Missing field `{}` with value of {} type", field, expected)`. -/
def missingFieldNote (field expected : Str) : Str :=
  ("Missing field `".toList) ++ field ++ ("` with value of ".toList) ++
    expected ++ (" type".toList)

/-- `format!("Value `{}` from field `{}` has wrong type (should be {})",
value, field, expected)`. -/
def unknownItemNote (value field expected : Str) : Str :=
  ("Value `".toList) ++ value ++ ("` from field `".toList) ++ field ++
    ("` has wrong type (should be ".toList) ++ expected ++ (")".toList)

/-- `format!("Value `{}` has wrong type (should be floating point number)",
value)` used for a bad temperature token. -/
def badTemperatureNote (value : Str) : Str :=
  ("Value `".toList) ++ value ++
    ("` has wrong type (should be floating point number)".toList)

def wrongCommentNote : Str :=
  ("Comment should begin with `!` character".toList)

def notFloatNote : Str := ("Expected floating point number".toList)

def notIntNote : Str := ("Expected integer".toList)

def unknownPartnerNote : Str :=
  ("Unknown collision partner id (1=H2, 2=para-H2, 3=ortho-H2, 4=electrons, 5=H, 6=He, 7=H+)".toList)

/-! ## Field parsers -/

/-- `Comment` newtype: its `FromStr` never fails. -/
structure Comment where
  text : Str
deriving DecidableEq, Repr

/-- `Comment::from_str`: trim `' '`, `'!'` and `'\n'` from both ends;
always succeeds (the declared error type is never produced). -/
def Comment.from_str (s : Str) : Except ParseError Comment :=
  .ok ⟨trimMatches (fun c => c == ' ' || c == '!' || c == '\n') s⟩

structure ElementName where
  name : Str
  information : Str
deriving DecidableEq, Repr

/-- `ElementName::from_str`: split the trimmed line at the first space; when
no space is present the whole untrimmed line becomes the name (the Rust
`unwrap_or((s, ""))` falls back to the original `s`).  The trailing text is
trimmed of `' '`, `'!'` and `'\n'`.  Always succeeds. -/
def ElementName.from_str (s : Str) : Except ParseError ElementName :=
  let p := splitOnceSpace (rustTrim s)
  let q := match p with
    | some pr => pr
    | none => (s, [])
  .ok ⟨q.1, trimMatches (fun c => c == ' ' || c == '!' || c == '\n') q.2⟩

/-- `NumberOfEnergyLevels::from_str`. -/
def NumberOfEnergyLevels.from_str (s : Str) : Option Nat :=
  parseU32 (rustTrim s)

/-- `NumberOfRadiativeTransitions::from_str`. -/
def NumberOfRadiativeTransitions.from_str (s : Str) : Option Nat :=
  parseU32 (rustTrim s)

/-- `NumberOfCollisionPartners::from_str`. -/
def NumberOfCollisionPartners.from_str (s : Str) : Option Nat :=
  parseU32 (rustTrim s)

/-- `NumberOfCollisionalTransitions::from_str`. -/
def NumberOfCollisionalTransitions.from_str (s : Str) : Option Nat :=
  parseU32 (rustTrim s)

/-- `NumberOfCollisionalTemperatures::from_str`. -/
def NumberOfCollisionalTemperatures.from_str (s : Str) : Option Nat :=
  parseU32 (rustTrim s)

/-! ## Composite record parsers -/

structure EnergyLevel where
  level : Nat
  energy : F64
  stat_weight : F64
  qnums : Str
deriving DecidableEq, Repr

/-- The `values.map(|e| e.to_owned() + " ").collect::<String>()` pattern:
concatenate each remaining token followed by one space. -/
def joinTokensSpace (ts : List Str) : Str :=
  (ts.map (fun t => t ++ [' '])).flatten

/-- The trim set used for the free-text tails of record lines:
`' '`, `'!'`, `'\''`, `'\n'`. -/
def tailTrim (c : Char) : Bool :=
  c == ' ' || c == '!' || c == '\'' || c == '\n'

/-- `EnergyLevel::from_str`.  `none` models the `unwrap` panic on the
`values_beg.nth(field as usize)` re-fetch of an offending token. -/
def EnergyLevel.from_str (s : Str) :
    Option (Except (SplittedFieldParseError EnergyLevelField) EnergyLevel) :=
  let values := splitWs s
  match values.get? 0 with
  | none => some (.error (.MissingField .Level .Integer))
  | some t0 =>
    match parseU32 t0 with
    | none =>
      match values.get? (EnergyLevelField.idx .Level) with
      | none => none
      | some v => some (.error (.UnknownFormat .Level v .Integer))
    | some level =>
      match values.get? 1 with
      | none => some (.error (.MissingField .Energy .Float))
      | some t1 =>
        match parseF64 t1 with
        | none =>
          match values.get? (EnergyLevelField.idx .Energy) with
          | none => none
          | some v => some (.error (.UnknownFormat .Energy v .Float))
        | some energy =>
          match values.get? 2 with
          | none => some (.error (.MissingField .StatisticalWeight .Float))
          | some t2 =>
            match parseF64 t2 with
            | none =>
              match values.get? (EnergyLevelField.idx .StatisticalWeight) with
              | none => none
              | some v => some (.error (.UnknownFormat .StatisticalWeight v .Float))
            | some stat_weight =>
              some (.ok ⟨level, energy, stat_weight,
                trimMatches tailTrim (joinTokensSpace (values.drop 3))⟩)

structure RadiativeTransition where
  transition : Nat
  up : Nat
  low : Nat
  aeinst : F64
  extra : Str
deriving DecidableEq, Repr

/-- `RadiativeTransition::from_str`. -/
def RadiativeTransition.from_str (s : Str) :
    Option (Except (SplittedFieldParseError RadiativeTransitionField) RadiativeTransition) :=
  let values := splitWs s
  match values.get? 0 with
  | none => some (.error (.MissingField .Transition .Integer))
  | some t0 =>
    match parseU32 t0 with
    | none =>
      match values.get? (RadiativeTransitionField.idx .Transition) with
      | none => none
      | some v => some (.error (.UnknownFormat .Transition v .Integer))
    | some transition =>
      match values.get? 1 with
      | none => some (.error (.MissingField .UpperLevel .Integer))
      | some t1 =>
        match parseU32 t1 with
        | none =>
          match values.get? (RadiativeTransitionField.idx .UpperLevel) with
          | none => none
          | some v => some (.error (.UnknownFormat .UpperLevel v .Integer))
        | some up =>
          match values.get? 2 with
          | none => some (.error (.MissingField .LowerLevel .Integer))
          | some t2 =>
            match parseU32 t2 with
            | none =>
              match values.get? (RadiativeTransitionField.idx .LowerLevel) with
              | none => none
              | some v => some (.error (.UnknownFormat .LowerLevel v .Integer))
            | some low =>
              match values.get? 3 with
              | none => some (.error (.MissingField .SpontaneousDecayRate .Float))
              | some t3 =>
                match parseF64 t3 with
                | none =>
                  match values.get? (RadiativeTransitionField.idx .SpontaneousDecayRate) with
                  | none => none
                  | some v => some (.error (.UnknownFormat .SpontaneousDecayRate v .Float))
                | some aeinst =>
                  some (.ok ⟨transition, up, low, aeinst,
                    trimMatches tailTrim (joinTokensSpace (values.drop 4))⟩)

/-- The closed set of collision-partner identities (`CollisionPartnerId`). -/
inductive CollisionPartnerId where
  | H2
  | pH2
  | oH2
  | electrons
  | HI
  | He
  | HII
deriving DecidableEq, Repr

/-- `TryFrom<u32> for CollisionPartnerId`: codes 1 through 7. -/
def CollisionPartnerId.tryFrom (n : Nat) : Option CollisionPartnerId :=
  match n with
  | 1 => some .H2
  | 2 => some .pH2
  | 3 => some .oH2
  | 4 => some .electrons
  | 5 => some .HI
  | 6 => some .He
  | 7 => some .HII
  | _ => none

structure CollisionPartnerName where
  name : CollisionPartnerId
  information : Str
deriving DecidableEq, Repr

/-- `CollisionPartnerName::from_str`: split the trimmed line at the first
space (falling back to the whole untrimmed line); the first part must parse
as an integer 1–7.  `none` models the `CollisionPartnerIdParseError`. -/
def CollisionPartnerName.from_str (s : Str) : Option CollisionPartnerName :=
  let q := match splitOnceSpace (rustTrim s) with
    | some pr => pr
    | none => (s, [])
  match parseU32 q.1 with
  | none => none
  | some n =>
    match CollisionPartnerId.tryFrom n with
    | none => none
    | some id =>
      some ⟨id, trimMatches (fun c => c == ' ' || c == '!' || c == '\n') q.2⟩

/-- `CollisionalTemperatures::from_str`: parse every whitespace token as a
float; the error carries the first offending token's literal text. -/
def CollisionalTemperatures.fromTokens : List Str → Except Str (List F64)
  | [] => .ok []
  | t :: ts =>
    match parseF64 t with
    | none => .error t
    | some v =>
      match CollisionalTemperatures.fromTokens ts with
      | .error e => .error e
      | .ok vs => .ok (v :: vs)

def CollisionalTemperatures.from_str (s : Str) : Except Str (List F64) :=
  CollisionalTemperatures.fromTokens (splitWs s)

structure CollisionalRates where
  transition : Nat
  up : Nat
  low : Nat
  rates : List F64
deriving DecidableEq, Repr

/-- The trailing `for i in values` loop of `CollisionalRates::from_str`:
parse every remaining token as a float, failing on the first bad one. -/
def CollisionalRates.tailRates :
    List Str → Except (SplittedFieldParseError CollisionalRatesField) (List F64)
  | [] => .ok []
  | t :: ts =>
    match parseF64 t with
    | none => .error (.UnknownFormat .RateCoefficients t .Float)
    | some v =>
      match CollisionalRates.tailRates ts with
      | .error e => .error e
      | .ok vs => .ok (v :: vs)

/-- `CollisionalRates::from_str`. -/
def CollisionalRates.from_str (s : Str) :
    Option (Except (SplittedFieldParseError CollisionalRatesField) CollisionalRates) :=
  let values := splitWs s
  match values.get? 0 with
  | none => some (.error (.MissingField .Transition .Integer))
  | some t0 =>
    match parseU32 t0 with
    | none =>
      match values.get? (CollisionalRatesField.idx .Transition) with
      | none => none
      | some v => some (.error (.UnknownFormat .Transition v .Integer))
    | some transition =>
      match values.get? 1 with
      | none => some (.error (.MissingField .UpperLevel .Integer))
      | some t1 =>
        match parseU32 t1 with
        | none =>
          match values.get? (CollisionalRatesField.idx .UpperLevel) with
          | none => none
          | some v => some (.error (.UnknownFormat .UpperLevel v .Integer))
        | some up =>
          match values.get? 2 with
          | none => some (.error (.MissingField .LowerLevel .Integer))
          | some t2 =>
            match parseU32 t2 with
            | none =>
              match values.get? (CollisionalRatesField.idx .LowerLevel) with
              | none => none
              | some v => some (.error (.UnknownFormat .LowerLevel v .Integer))
            | some low =>
              match CollisionalRates.tailRates (values.drop 3) with
              | .error e => some (.error e)
              | .ok rates => some (.ok ⟨transition, up, low, rates⟩)

/-! ## Document data model and orchestrator -/

structure CollisionPartnerData where
  name : CollisionPartnerId
  information : Str
  temperatures : List F64
  rates : List CollisionalRates
deriving DecidableEq, Repr

structure ElementData where
  name : Str
  information : Str
  weight : F64
  energy_levels : List EnergyLevel
  radiative_transitions : List RadiativeTransition
  collision_partners : List CollisionPartnerData
deriving DecidableEq, Repr

/-- The result of a fallible, possibly panicking step: `none` is a panic,
`some (.error e)` an `Err` propagated by `?` or `return Err(..)`. -/
abbrev PRes (α : Type) : Type := Option (Except ParseError α)

/-- Sequencing of `PRes` steps, the `?` operator combined with panic
propagation. -/
def pbind {α β : Type} (m : PRes α) (f : α → PRes β) : PRes β :=
  match m with
  | none => none
  | some (.error e) => some (.error e)
  | some (.ok a) => f a

/-- An infallible `Result` step. -/
def liftExc {α : Type} (r : Except ParseError α) : PRes α := some r

/-- `ElementData::validate_and_parse_comment`: the trimmed line must start
with `!`; `none` models the `expect` panic (which would require
`Comment::from_str` to fail). -/
def ElementData.validate_and_parse_comment (line_number : Nat) (line : Str) :
    PRes Comment :=
  match rustTrim line with
  | '!' :: _ =>
    match Comment.from_str line with
    | .ok c => some (.ok c)
    | .error _ => none
  | _ => some (.error (.WrongCommentFormat line_number line wrongCommentNote))

/-- `lines.next().ok_or(ParseError::NotEnoughInput{line_number: prev + 1})`:
`prev` is the enumerate index of the last directly fetched line (`0` for the
very first fetch, whose failure is hard-coded to line number 1). -/
def nextLine (prev : Nat) (ls : List (Nat × Str)) :
    Except ParseError ((Nat × Str) × List (Nat × Str)) :=
  match ls with
  | [] => .error (.NotEnoughInput (prev + 1))
  | x :: xs => .ok (x, xs)

/-- The `lines.by_ref().take(n).map(..).collect::<Result<Vec<_>, _>>()`
pattern: parse up to `n` further lines, stopping early (without error) when
the cursor is exhausted, and short-circuiting on the first parse error. -/
def takeCollect {α : Type} (n : Nat) (f : Nat × Str → PRes α)
    (ls : List (Nat × Str)) : PRes (List α × List (Nat × Str)) :=
  match n with
  | 0 => some (.ok ([], ls))
  | n + 1 =>
    match ls with
    | [] => some (.ok ([], []))
    | x :: xs =>
      pbind (f x) fun a =>
      pbind (takeCollect n f xs) fun pr =>
      some (.ok (a :: pr.1, pr.2))

/-- The per-line closure used for energy-level lines: re-wraps the narrow
field error with the line context. -/
def parseEnergyLevelLine (el : Nat × Str) : PRes EnergyLevel :=
  match EnergyLevel.from_str el.2 with
  | none => none
  | some (.ok v) => some (.ok v)
  | some (.error (.MissingField field expected)) =>
    some (.error (.MissingField el.1 el.2
      (missingFieldNote field.display expected.display)))
  | some (.error (.UnknownFormat field value expected)) =>
    some (.error (.UnknownItem el.1 ((findSub el.2 value).getD 0) value.length
      el.2 (unknownItemNote value field.display expected.display)))

/-- The per-line closure used for radiative-transition lines. -/
def parseRadiativeTransitionLine (el : Nat × Str) :
    PRes RadiativeTransition :=
  match RadiativeTransition.from_str el.2 with
  | none => none
  | some (.ok v) => some (.ok v)
  | some (.error (.MissingField field expected)) =>
    some (.error (.MissingField el.1 el.2
      (missingFieldNote field.display expected.display)))
  | some (.error (.UnknownFormat field value expected)) =>
    some (.error (.UnknownItem el.1 ((findSub el.2 value).getD 0) value.length
      el.2 (unknownItemNote value field.display expected.display)))

/-- The per-line closure used for collisional-rate lines. -/
def parseCollisionalRatesLine (el : Nat × Str) :
    PRes CollisionalRates :=
  match CollisionalRates.from_str el.2 with
  | none => none
  | some (.ok v) => some (.ok v)
  | some (.error (.MissingField field expected)) =>
    some (.error (.MissingField el.1 el.2
      (missingFieldNote field.display expected.display)))
  | some (.error (.UnknownFormat field value expected)) =>
    some (.error (.UnknownItem el.1 ((findSub el.2 value).getD 0) value.length
      el.2 (unknownItemNote value field.display expected.display)))

/-- The character for decimal digit `d`. -/
def digitChar (d : Nat) : Char := Char.ofNat (48 + d)

def natToStrGo : Nat → Nat → Str → Str
  | 0, _, acc => acc
  | fuel + 1, n, acc =>
    if n = 0 then acc else natToStrGo fuel (n / 10) (digitChar (n % 10) :: acc)

/-- `format!("{}", n)`: plain decimal rendering of an unsigned integer.
The structural fuel (first argument of the worker) is sufficient because
`n / 10 < n` for positive `n`. -/
def natToStr (n : Nat) : Str :=
  if n = 0 then ['0'] else natToStrGo n n []

def trailingNote (npart : Nat) : Str :=
  natToStr npart ++
    (" collision partners were read, only comments with additional information should be left".toList)

/-- The final `lines.map(..).collect::<Result<String, _>>()`: every
remaining non-blank line must be a comment; its trimmed text plus one space
is appended; blank lines contribute nothing. -/
def trailingInfo (npart : Nat) : List (Nat × Str) → PRes Str
  | [] => some (.ok [])
  | el :: rest =>
    if (rustTrim el.2).isEmpty then trailingInfo npart rest
    else
      match ElementData.validate_and_parse_comment el.1 el.2 with
      | none => none
      | some (.ok c) =>
        pbind (trailingInfo npart rest) fun acc =>
        some (.ok (c.text ++ [' '] ++ acc))
      | some (.error _) =>
        some (.error (.WrongCommentFormat el.1 el.2 (trailingNote npart)))

/-- The `for _ in 1..(npart + 1)` body, one recursion step per partner
block.  `line` is the last directly fetched `(index, text)` pair — exactly
the Rust `line` variable, which `take` blocks do not update.  Each partner
is paired with its declared `ncol` so that the bounded-section invariant
can be stated; `from_str` discards the pairing. -/
def partnerLoop (fuel : Nat) (line : Nat × Str) (ls : List (Nat × Str)) :
    PRes (List (CollisionPartnerData × Nat) × (Nat × Str) × List (Nat × Str)) :=
  match fuel with
  | 0 => some (.ok ([], line, ls))
  | fuel + 1 =>
    pbind (liftExc (nextLine line.1 ls)) fun st1 =>
    pbind (ElementData.validate_and_parse_comment st1.1.1 st1.1.2) fun _ =>
    pbind (liftExc (nextLine st1.1.1 st1.2)) fun st2 =>
    pbind (match CollisionPartnerName.from_str st2.1.2 with
      | none => some (.error (.UnknownCollisionPartner st2.1.1 st2.1.2 unknownPartnerNote))
      | some cpn => some (.ok cpn)) fun cpn =>
    pbind (liftExc (nextLine st2.1.1 st2.2)) fun st3 =>
    pbind (ElementData.validate_and_parse_comment st3.1.1 st3.1.2) fun _ =>
    pbind (liftExc (nextLine st3.1.1 st3.2)) fun st4 =>
    pbind (match NumberOfCollisionalTransitions.from_str st4.1.2 with
      | none => some (.error (.NotInt st4.1.1 st4.1.2 notIntNote))
      | some n => some (.ok n)) fun ncol =>
    pbind (liftExc (nextLine st4.1.1 st4.2)) fun st5 =>
    pbind (ElementData.validate_and_parse_comment st5.1.1 st5.1.2) fun _ =>
    pbind (liftExc (nextLine st5.1.1 st5.2)) fun st6 =>
    pbind (match NumberOfCollisionalTemperatures.from_str st6.1.2 with
      | none => some (.error (.NotInt st6.1.1 st6.1.2 notIntNote))
      | some n => some (.ok n)) fun _ntemp =>
    pbind (liftExc (nextLine st6.1.1 st6.2)) fun st7 =>
    pbind (ElementData.validate_and_parse_comment st7.1.1 st7.1.2) fun _ =>
    pbind (liftExc (nextLine st7.1.1 st7.2)) fun st8 =>
    pbind (match CollisionalTemperatures.from_str st8.1.2 with
      | .error v =>
        some (.error (.UnknownItem st8.1.1 ((findSub st8.1.2 v).getD 0) v.length
          st8.1.2 (badTemperatureNote v)))
      | .ok temps => some (.ok temps)) fun temperatures =>
    pbind (liftExc (nextLine st8.1.1 st8.2)) fun st9 =>
    pbind (ElementData.validate_and_parse_comment st9.1.1 st9.1.2) fun _ =>
    pbind (takeCollect ncol parseCollisionalRatesLine st9.2) fun rt =>
    pbind (partnerLoop fuel st9.1 rt.2) fun rec =>
    some (.ok ((⟨cpn.name, cpn.information, temperatures, rt.1⟩, ncol) :: rec.1,
      rec.2.1, rec.2.2))

/-- The trip count of `for _ in 1..(npart + 1)` under `u32` (release)
semantics: `npart` iterations, except that `npart = u32::MAX` wraps the
upper bound to `0` and the loop body never runs. -/
def loopTrips (npart : Nat) : Nat := ((npart + 1) % 2 ^ 32) - 1

/-- The declared counts read by one parse, recorded for specification
purposes only (`from_str` projects them away). -/
structure CountsInfo where
  nlev : Nat
  nlin : Nat
  npart : Nat
  ncols : List Nat
deriving DecidableEq, Repr

/-- The body of `ElementData::from_str` over the enumerated line cursor,
additionally returning the declared counts it read. -/
def ElementData.parseDoc (ls0 : List (Nat × Str)) :
    PRes (CountsInfo × ElementData) :=
  pbind (liftExc (nextLine 0 ls0)) fun st1 =>
  pbind (ElementData.validate_and_parse_comment st1.1.1 st1.1.2) fun _ =>
  pbind (liftExc (nextLine st1.1.1 st1.2)) fun st2 =>
  pbind (match ElementName.from_str st2.1.2 with
    | .ok en => some (.ok en)
    | .error _ => none) fun en =>
  pbind (liftExc (nextLine st2.1.1 st2.2)) fun st3 =>
  pbind (ElementData.validate_and_parse_comment st3.1.1 st3.1.2) fun _ =>
  pbind (liftExc (nextLine st3.1.1 st3.2)) fun st4 =>
  pbind (match parseF64 (rustTrim st4.1.2) with
    | none => some (.error (.NotFloat st4.1.1 st4.1.2 notFloatNote))
    | some w => some (.ok w)) fun weight =>
  pbind (liftExc (nextLine st4.1.1 st4.2)) fun st5 =>
  pbind (ElementData.validate_and_parse_comment st5.1.1 st5.1.2) fun _ =>
  pbind (liftExc (nextLine st5.1.1 st5.2)) fun st6 =>
  pbind (match NumberOfEnergyLevels.from_str st6.1.2 with
    | none => some (.error (.NotInt st6.1.1 st6.1.2 notIntNote))
    | some n => some (.ok n)) fun nlev =>
  pbind (liftExc (nextLine st6.1.1 st6.2)) fun st7 =>
  pbind (ElementData.validate_and_parse_comment st7.1.1 st7.1.2) fun _ =>
  pbind (takeCollect nlev parseEnergyLevelLine st7.2) fun lv =>
  pbind (liftExc (nextLine st7.1.1 lv.2)) fun st8 =>
  pbind (ElementData.validate_and_parse_comment st8.1.1 st8.1.2) fun _ =>
  pbind (liftExc (nextLine st8.1.1 st8.2)) fun st9 =>
  pbind (match NumberOfRadiativeTransitions.from_str st9.1.2 with
    | none => some (.error (.NotInt st9.1.1 st9.1.2 notIntNote))
    | some n => some (.ok n)) fun nlin =>
  pbind (liftExc (nextLine st9.1.1 st9.2)) fun st10 =>
  pbind (ElementData.validate_and_parse_comment st10.1.1 st10.1.2) fun _ =>
  pbind (takeCollect nlin parseRadiativeTransitionLine st10.2) fun tr =>
  pbind (liftExc (nextLine st10.1.1 tr.2)) fun st11 =>
  pbind (ElementData.validate_and_parse_comment st11.1.1 st11.1.2) fun _ =>
  pbind (liftExc (nextLine st11.1.1 st11.2)) fun st12 =>
  pbind (match NumberOfCollisionPartners.from_str st12.1.2 with
    | none => some (.error (.NotInt st12.1.1 st12.1.2 notIntNote))
    | some n => some (.ok n)) fun npart =>
  pbind (partnerLoop (loopTrips npart) st12.1 st12.2) fun lp =>
  pbind (trailingInfo npart lp.2.2) fun additional =>
  some (.ok (⟨nlev, nlin, npart, lp.1.map (fun pr => pr.2)⟩,
    ⟨en.name, en.information ++ (". ".toList) ++ additional, weight,
      lv.1, tr.1, lp.1.map (fun pr => pr.1)⟩))

/-- `ElementData::from_str` over an already-split line list, with counts. -/
def ElementData.fromLinesCounts (lines : List Str) :
    PRes (CountsInfo × ElementData) :=
  ElementData.parseDoc (enumFrom 0 lines)

/-- `ElementData::from_str` over an already-split line list. -/
def ElementData.fromLines (lines : List Str) : PRes ElementData :=
  pbind (ElementData.fromLinesCounts lines) fun pr => some (.ok pr.2)

/-- `ElementData::from_str`.  `none` models a panic; `some (.error e)` and
`some (.ok d)` model `Err e` and `Ok d`. -/
def ElementData.from_str (s : Str) : PRes ElementData :=
  ElementData.fromLines (rustLines s)

/-! ## Diagnostic renderer (`impl Display for ParseError`) -/

/-- `format!("{:>w$}", s)`: right-justify in a field of minimum width `w`
(the argument is never truncated). -/
def padLeft (s : Str) (w : Nat) : Str :=
  List.replicate (w - s.length) ' ' ++ s

/-- `format!("{:fill<w$}", s)`: left-justify, padding with `fill` up to the
minimum width `w`. -/
def padRightFill (s : Str) (w : Nat) (fill : Char) : Str :=
  s ++ List.replicate (w - s.length) fill

/-- The blank 6-character gutter (`{:>6}` applied to `" "`). -/
def gutterBlank : Str := padLeft (" ".toList) 6

/-- Rendering of `NotEnoughInput`. -/
def renderNotEnoughInput (ln : Nat) : Str :=
  padLeft (natToStr ln) 6 ++ (" |".toList) ++ ['\n'] ++
  gutterBlank ++ (" | ".toList) ++ padRightFill ("^".toList) 6 '^' ++ ['\n'] ++
  gutterBlank ++ (" = Line ".toList) ++ natToStr ln ++
    (" is empty, but there should be more input.".toList) ++ ['\n']

/-- Rendering of `WrongCommentFormat`. -/
def renderWrongCommentFormat (ln : Nat) (line note : Str) : Str :=
  padLeft (natToStr ln) 6 ++ (" | ".toList) ++ line ++ ['\n'] ++
  gutterBlank ++ (" | ^".toList) ++ ['\n'] ++
  gutterBlank ++ (" = ".toList) ++ note ++ ['.'] ++ ['\n']

/-- Rendering of `MissingField`: the caret group is `{:^<6}` applied to
`"^"` (six carets), placed after the raw line width plus one space. -/
def renderMissingField (ln : Nat) (line note : Str) : Str :=
  padLeft (natToStr ln) 6 ++ (" | ".toList) ++ line ++ ['\n'] ++
  gutterBlank ++ (" | ".toList) ++ padLeft (" ".toList) line.length ++ [' '] ++
    padRightFill ("^".toList) 6 '^' ++ ['\n'] ++
  gutterBlank ++ (" = ".toList) ++ note ++ ['.'] ++ ['\n']

/-- Rendering of `NotFloat`: carets across the whole raw line width. -/
def renderNotFloat (ln : Nat) (line note : Str) : Str :=
  padLeft (natToStr ln) 6 ++ (" | ".toList) ++ line ++ ['\n'] ++
  gutterBlank ++ (" | ".toList) ++ padRightFill ("^".toList) line.length '^' ++ ['\n'] ++
  gutterBlank ++ (" = ".toList) ++ note ++ ['.'] ++ ['\n']

/-- Rendering of `NotInt`: same shape as `NotFloat`. -/
def renderNotInt (ln : Nat) (line note : Str) : Str :=
  padLeft (natToStr ln) 6 ++ (" | ".toList) ++ line ++ ['\n'] ++
  gutterBlank ++ (" | ".toList) ++ padRightFill ("^".toList) line.length '^' ++ ['\n'] ++
  gutterBlank ++ (" = ".toList) ++ note ++ ['.'] ++ ['\n']

/-- Rendering of `UnknownItem`: tabs in the echoed line are replaced by
single spaces; the caret group is `{:>column$}` applied to `" "` followed by
`{:^<value_width$}` applied to `"^"`. -/
def renderUnknownItem (ln column value_width : Nat) (line note : Str) : Str :=
  padLeft (natToStr ln) 6 ++ (" | ".toList) ++
    (line.map (fun c => if c == '\t' then ' ' else c)) ++ ['\n'] ++
  gutterBlank ++ (" | ".toList) ++ padLeft (" ".toList) column ++
    padRightFill ("^".toList) value_width '^' ++ ['\n'] ++
  gutterBlank ++ (" = ".toList) ++ note ++ ['.'] ++ ['\n']

/-- First index satisfying `p`, if any. -/
def findCharIdx (p : Char → Bool) : Str → Option Nat
  | [] => none
  | c :: cs => if p c then some 0 else (findCharIdx p cs).map (· + 1)

/-- `line.find(char::is_alphanumeric).unwrap_or(0)`. -/
def findAlnumIdx (s : Str) : Nat :=
  match findCharIdx (fun c => c.isAlphanum) s with
  | some i => i
  | none => 0

/-- `line.split_whitespace().next().unwrap_or("").len()`. -/
def firstTokenLen (s : Str) : Nat :=
  match splitWs s with
  | [] => 0
  | t :: _ => t.length

/-- Rendering of `UnknownCollisionPartner`. -/
def renderUnknownCollisionPartner (ln : Nat) (line note : Str) : Str :=
  padLeft (natToStr ln) 6 ++ (" | ".toList) ++ line ++ ['\n'] ++
  gutterBlank ++ (" | ".toList) ++ padLeft (" ".toList) (findAlnumIdx line) ++
    padRightFill ("^".toList) (firstTokenLen line) '^' ++ ['\n'] ++
  gutterBlank ++ (" = ".toList) ++ note ++ ['.'] ++ ['\n']

/-- `impl Display for ParseError`. -/
def ParseError.render : ParseError → Str
  | .NotEnoughInput ln => renderNotEnoughInput ln
  | .WrongCommentFormat ln line note => renderWrongCommentFormat ln line note
  | .MissingField ln line note => renderMissingField ln line note
  | .NotFloat ln line note => renderNotFloat ln line note
  | .NotInt ln line note => renderNotInt ln line note
  | .UnknownItem ln column value_width line note =>
    renderUnknownItem ln column value_width line note
  | .UnknownCollisionPartner ln line note =>
    renderUnknownCollisionPartner ln line note

/-- The `i`-th newline-separated line of a rendered diagnostic. -/
def renderedLine (r : Str) (i : Nat) : Str :=
  (splitOnChar '\n' r).getD i []

/-- Index of the first caret on a rendered line. -/
def caretStart : Str → Option Nat
  | [] => none
  | c :: cs => if c == '^' then some 0 else (caretStart cs).map (· + 1)

/-- Length of the first caret run on a rendered line. -/
def caretRunLen (l : Str) : Nat :=
  ((l.dropWhile (fun c => c != '^')).takeWhile (fun c => c == '^')).length

/-- The cursor invariant: every enumerated pair in flight points at the line
of the original document with its index. -/
def goodCursor (lines : List Str) (ls : List (Nat × Str)) : Prop :=
  ∀ x ∈ ls, lines.get? x.1 = some x.2

/-- Which facts hold of every error the parser can produce: errors that
carry a line pair carry a 0-based index with the very text of that line,
and `UnknownItem` columns and widths come from a nonempty literal re-located
by substring search in that line. -/
def errLocated (lines : List Str) : ParseError → Prop
  | .NotEnoughInput _ => True
  | .WrongCommentFormat ln line _ => lines.get? ln = some line
  | .MissingField ln line _ => lines.get? ln = some line
  | .NotFloat ln line _ => lines.get? ln = some line
  | .NotInt ln line _ => lines.get? ln = some line
  | .UnknownItem ln column width line _ =>
    lines.get? ln = some line ∧ 1 ≤ width ∧
    (∃ v : Str, v ≠ [] ∧ column = (findSub line v).getD 0 ∧ width = v.length)
  | .UnknownCollisionPartner ln line _ => lines.get? ln = some line

/-- Everything the soundness argument tracks about one `PRes` value: it is
not a panic, any error it carries is located (`errLocated`), and any success
satisfies `Q`. -/
def presSpec {α : Type} (lines : List Str) (Q : α → Prop) (r : PRes α) : Prop :=
  r.isSome ∧ (∀ e, r = some (.error e) → errLocated lines e) ∧
  (∀ a, r = some (.ok a) → Q a)

/-- The bounded-section invariant for the partner blocks: every partner's
rate list has exactly its declared length, except possibly the final one,
which can only fall short (when the input ends inside its rate block). -/
def ratesFit : List (CollisionPartnerData × Nat) → Prop
  | [] => True
  | [pr] => pr.1.rates.length ≤ pr.2
  | pr :: rest => pr.1.rates.length = pr.2 ∧ ratesFit rest

/-! ## Concrete documents used to exercise the parser -/

def mkLines (l : List String) : List Str := l.map String.toList

/-- A document whose three count lines all declare zero. -/
def zeroCountsDoc : List Str :=
  mkLines ["!c", "X", "!c", "1.0", "!c", "0", "!c", "!c", "0", "!c", "!c", "0"]

/-- A document declaring 2 collisional rate rows for its single partner but
providing only one, with nothing after it. -/
def truncatedRatesDoc : List Str :=
  mkLines ["!c", "X", "!c", "1.0", "!c", "0", "!c", "!c", "0", "!c", "!c", "1",
    "!c", "1 x", "!c", "2", "!c", "1", "!c", "10.0", "!c", "1 2 1 1.0"]

/-- One collision-partner block: comment, partner line, comment, 1 rate row
declared, comment, 1 temperature declared, comment, temperature row, comment,
one rate row. -/
def partnerBlock (idLine : String) : List Str :=
  mkLines ["!c", idLine, "!c", "1", "!c", "1", "!c", "10.0", "!c", "1 2 1 1.0"]

/-- A valid two-partner document (the truncation scenario's base). -/
def twoPartnerDoc : List Str :=
  mkLines ["!c", "X", "!c", "1.0", "!c", "0", "!c", "!c", "0", "!c", "!c", "2"] ++
  partnerBlock "1 x" ++ partnerBlock "2 y"

/-- The two-partner document with its final collision-partner block removed. -/
def twoPartnerDocTruncated : List Str :=
  mkLines ["!c", "X", "!c", "1.0", "!c", "0", "!c", "!c", "0", "!c", "!c", "2"] ++
  partnerBlock "1 x"

/-- A document declaring one energy level, whose level line is `lvl`. -/
def singleLevelDoc (lvl : Str) : List Str :=
  mkLines ["!c", "NAME", "!c", "1.0", "!c", "1", "!c"] ++ [lvl]

/-- A document whose level line `"1 2 "` (trailing space) is missing its
statistical-weight field. -/
def missingFieldDoc : List Str := singleLevelDoc ("1 2 ".toList)

/-- Whether a parse produced a document. -/
def isOkResult {α : Type} : PRes α → Bool
  | some (.ok _) => true
  | _ => false

/-- Join lines into a document text with a newline after each line. -/
def unlines (ls : List Str) : Str :=
  (ls.map (fun t => t ++ ['\n'])).flatten

def zeroCountsElement : ElementData :=
  ⟨("X".toList), (". ".toList), ⟨("1.0".toList)⟩, [], [], []⟩

/-- Modelled from the amended claim's words: split the trimmed line at the
first space character (tabs and other whitespace are not separators) into
name and trailing text; trim only space, `!` and newline characters (not
quotes) from both ends of the trailing text; absent a space in the trimmed
text, the entire untrimmed line becomes the name. -/
def elementNameSpecFn (s : Str) : ElementName :=
  match splitOnceSpace (rustTrim s) with
  | some pr =>
    ⟨pr.1, trimMatches (fun c => c == ' ' || c == '!' || c == '\n') pr.2⟩
  | none => ⟨s, []⟩

/-! ## Basic lemmas about the plumbing -/

@[simp] theorem pbind_none_eq {α β : Type} (f : α → PRes β) :
    pbind none f = none := rfl

@[simp] theorem pbind_error_eq {α β : Type} (e : ParseError) (f : α → PRes β) :
    pbind (some (.error e)) f = some (.error e) := rfl

@[simp] theorem pbind_ok_eq {α β : Type} (a : α) (f : α → PRes β) :
    pbind (some (.ok a)) f = f a := rfl

theorem pbind_isSome {α β : Type} {m : PRes α} {f : α → PRes β}
    (h1 : m.isSome) (h2 : ∀ a, (f a).isSome) : (pbind m f).isSome := by
  match m with
  | none => simp at h1
  | some (.error e) => simp [pbind]
  | some (.ok a) => exact h2 a

theorem pbind_eq_error {α β : Type} {m : PRes α} {f : α → PRes β} {e : ParseError}
    (h : pbind m f = some (.error e)) :
    m = some (.error e) ∨ ∃ a, m = some (.ok a) ∧ f a = some (.error e) := by
  match m with
  | none => simp [pbind] at h
  | some (.error e') =>
    simp only [pbind, Option.some.injEq, Except.error.injEq] at h
    left
    rw [h]
  | some (.ok a) =>
    right
    exact ⟨a, rfl, h⟩

theorem pbind_eq_ok {α β : Type} {m : PRes α} {f : α → PRes β} {b : β}
    (h : pbind m f = some (.ok b)) :
    ∃ a, m = some (.ok a) ∧ f a = some (.ok b) := by
  match m with
  | none => simp [pbind] at h
  | some (.error e') => simp [pbind] at h
  | some (.ok a) => exact ⟨a, rfl, h⟩

@[simp] theorem liftExc_isSome {α : Type} (r : Except ParseError α) :
    (liftExc r).isSome := rfl

theorem nextLine_eq_ok {prev : Nat} {ls : List (Nat × Str)}
    {x : Nat × Str} {rest : List (Nat × Str)}
    (h : nextLine prev ls = .ok (x, rest)) : ls = x :: rest := by
  match ls with
  | [] => simp [nextLine] at h
  | y :: ys =>
    simp only [nextLine, Except.ok.injEq, Prod.mk.injEq] at h
    rw [h.1, h.2]

theorem nextLine_eq_error {prev : Nat} {ls : List (Nat × Str)} {e : ParseError}
    (h : nextLine prev ls = .error e) : e = .NotEnoughInput (prev + 1) ∧ ls = [] := by
  match ls with
  | [] =>
    simp only [nextLine, Except.error.injEq] at h
    exact ⟨h.symm, rfl⟩
  | y :: ys => simp [nextLine] at h

theorem nextLine_ne_nil {prev : Nat} {ls : List (Nat × Str)}
    (h : ls ≠ []) : ∃ x rest, nextLine prev ls = .ok (x, rest) := by
  match ls with
  | [] => exact absurd rfl h
  | y :: ys => exact ⟨y, ys, rfl⟩

theorem goodCursor_nil (lines : List Str) : goodCursor lines [] := by
  intro x hx
  simp at hx

theorem goodCursor_cons {lines : List Str} {x : Nat × Str} {ls : List (Nat × Str)}
    (h : goodCursor lines (x :: ls)) :
    lines.get? x.1 = some x.2 ∧ goodCursor lines ls :=
  ⟨h x (List.mem_cons_self x ls), fun y hy => h y (List.mem_cons_of_mem x hy)⟩

theorem goodCursor_drop {lines : List Str} {ls : List (Nat × Str)} (n : Nat)
    (h : goodCursor lines ls) : goodCursor lines (ls.drop n) :=
  fun x hx => h x (List.drop_subset n ls hx)

theorem enumFrom_mem {k : Nat} {ss : List Str} {x : Nat × Str}
    (h : x ∈ enumFrom k ss) : k ≤ x.1 ∧ ss.get? (x.1 - k) = some x.2 := by
  induction ss generalizing k with
  | nil => simp [enumFrom] at h
  | cons s ss ih =>
    simp only [enumFrom, List.mem_cons] at h
    rcases h with rfl | h
    · simp
    · obtain ⟨hk, hget⟩ := ih (k := k + 1) h
      refine ⟨by omega, ?_⟩
      have hx : x.1 - k = (x.1 - (k + 1)) + 1 := by omega
      rw [hx]
      simpa using hget

theorem goodCursor_enum (lines : List Str) : goodCursor lines (enumFrom 0 lines) := by
  intro x hx
  have h := enumFrom_mem hx
  simpa using h.2

/-! ## `takeCollect` lemmas -/

theorem takeCollect_isSome {α : Type} {f : Nat × Str → PRes α}
    (hf : ∀ x, (f x).isSome) :
    ∀ (n : Nat) (ls : List (Nat × Str)), (takeCollect n f ls).isSome := by
  intro n
  induction n with
  | zero => intro ls; rfl
  | succ n ih =>
    intro ls
    match ls with
    | [] => rfl
    | x :: xs =>
      exact pbind_isSome (hf x) (fun a => pbind_isSome (ih xs) (fun pr => rfl))

theorem takeCollect_eq_ok {α : Type} {f : Nat × Str → PRes α} :
    ∀ {n : Nat} {ls : List (Nat × Str)} {vs : List α} {rest : List (Nat × Str)},
    takeCollect n f ls = some (.ok (vs, rest)) →
    vs.length = min n ls.length ∧ rest = ls.drop n := by
  intro n
  induction n with
  | zero =>
    intro ls vs rest h
    simp only [takeCollect, Option.some.injEq, Except.ok.injEq, Prod.mk.injEq] at h
    obtain ⟨h1, h2⟩ := h
    simp [← h1, h2.symm]
  | succ n ih =>
    intro ls vs rest h
    match ls with
    | [] =>
      simp only [takeCollect, Option.some.injEq, Except.ok.injEq, Prod.mk.injEq] at h
      obtain ⟨h1, h2⟩ := h
      simp [← h1, ← h2]
    | x :: xs =>
      simp only [takeCollect] at h
      obtain ⟨a, ha, h2⟩ := pbind_eq_ok h
      obtain ⟨⟨vs1, rest1⟩, hpr, h3⟩ := pbind_eq_ok h2
      simp only [Option.some.injEq, Except.ok.injEq, Prod.mk.injEq] at h3
      obtain ⟨h4, h5⟩ := h3
      obtain ⟨hl, hr⟩ := ih hpr
      constructor
      · rw [← h4]
        simp only [List.length_cons, hl]
        omega
      · rw [← h5, hr]
        simp

theorem takeCollect_eq_error {α : Type} {f : Nat × Str → PRes α} :
    ∀ {n : Nat} {ls : List (Nat × Str)} {e : ParseError},
    takeCollect n f ls = some (.error e) →
    ∃ x ∈ ls, f x = some (.error e) := by
  intro n
  induction n with
  | zero =>
    intro ls e h
    simp [takeCollect] at h
  | succ n ih =>
    intro ls e h
    match ls with
    | [] => simp [takeCollect] at h
    | x :: xs =>
      simp only [takeCollect] at h
      rcases pbind_eq_error h with h1 | ⟨a, ha, h2⟩
      · exact ⟨x, List.mem_cons_self x xs, h1⟩
      · rcases pbind_eq_error h2 with h3 | ⟨pr, hpr, h4⟩
        · obtain ⟨y, hy, hfy⟩ := ih h3
          exact ⟨y, List.mem_cons_of_mem x hy, hfy⟩
        · simp at h4

/-! ## Token and comment lemmas -/

theorem splitWsAux_ne_nil (s : Str) :
    ∀ (cur t : Str), t ∈ splitWsAux s cur → t ≠ [] := by
  induction s with
  | nil =>
    intro cur t ht
    simp only [splitWsAux] at ht
    split at ht
    · simp at ht
    · next hcur =>
      simp only [List.mem_singleton] at ht
      subst ht
      simp only [ne_eq, List.reverse_eq_nil_iff]
      intro hc
      subst hc
      simp at hcur
  | cons c cs ih =>
    intro cur t ht
    simp only [splitWsAux] at ht
    split at ht
    · split at ht
      · exact ih [] t ht
      · next hcur =>
        rcases List.mem_cons.mp ht with rfl | ht2
        · simp only [ne_eq, List.reverse_eq_nil_iff]
          intro hc
          subst hc
          simp at hcur
        · exact ih [] t ht2
    · exact ih (c :: cur) t ht

theorem splitWs_ne_nil {s t : Str} (h : t ∈ splitWs s) : t ≠ [] :=
  splitWsAux_ne_nil s [] t h

theorem validate_comment_isSome (ln : Nat) (line : Str) :
    (ElementData.validate_and_parse_comment ln line).isSome := by
  unfold ElementData.validate_and_parse_comment
  split
  · simp [Comment.from_str]
  · rfl

theorem validate_comment_eq_error {ln : Nat} {line : Str} {e : ParseError}
    (h : ElementData.validate_and_parse_comment ln line = some (.error e)) :
    e = .WrongCommentFormat ln line wrongCommentNote := by
  unfold ElementData.validate_and_parse_comment at h
  split at h
  · simp [Comment.from_str] at h
  · simp only [Option.some.injEq, Except.error.injEq] at h
    exact h.symm

theorem elementName_from_str_ok (s : Str) :
    ∃ en, ElementName.from_str s = .ok en :=
  ⟨_, rfl⟩

/-! ## Record-parser case lemmas -/

theorem energyLevel_from_str_cases (s : Str) :
    (∃ v, EnergyLevel.from_str s = some (.ok v)) ∨
    (∃ f exp, EnergyLevel.from_str s = some (.error (.MissingField f exp))) ∨
    (∃ f v exp, v ∈ splitWs s ∧
      EnergyLevel.from_str s = some (.error (.UnknownFormat f v exp))) := by
  simp only [EnergyLevel.from_str]
  cases h0 : (splitWs s).get? 0 with
  | none =>
    right; left
    exact ⟨.Level, .Integer, by simp⟩
  | some t0 =>
    cases hp0 : parseU32 t0 with
    | none =>
      right; right
      exact ⟨.Level, t0, .Integer, List.get?_mem h0, by
        simp [EnergyLevelField.idx, hp0, ← List.get?_eq_getElem?, h0]⟩
    | some lvl =>
      cases h1 : (splitWs s).get? 1 with
      | none =>
        right; left
        exact ⟨.Energy, .Float, by simp [hp0]⟩
      | some t1 =>
        cases hp1 : parseF64 t1 with
        | none =>
          right; right
          exact ⟨.Energy, t1, .Float, List.get?_mem h1, by
            simp [EnergyLevelField.idx, hp0, hp1, ← List.get?_eq_getElem?, h1]⟩
        | some en =>
          cases h2 : (splitWs s).get? 2 with
          | none =>
            right; left
            exact ⟨.StatisticalWeight, .Float, by simp [hp0, hp1]⟩
          | some t2 =>
            cases hp2 : parseF64 t2 with
            | none =>
              right; right
              exact ⟨.StatisticalWeight, t2, .Float, List.get?_mem h2, by
                simp [EnergyLevelField.idx, hp0, hp1, hp2, ← List.get?_eq_getElem?, h2]⟩
            | some sw =>
              left
              exact ⟨⟨lvl, en, sw,
                trimMatches tailTrim (joinTokensSpace ((splitWs s).drop 3))⟩, by
                  simp [hp0, hp1, hp2]⟩

theorem radiativeTransition_from_str_cases (s : Str) :
    (∃ v, RadiativeTransition.from_str s = some (.ok v)) ∨
    (∃ f exp, RadiativeTransition.from_str s = some (.error (.MissingField f exp))) ∨
    (∃ f v exp, v ∈ splitWs s ∧
      RadiativeTransition.from_str s = some (.error (.UnknownFormat f v exp))) := by
  simp only [RadiativeTransition.from_str]
  cases h0 : (splitWs s).get? 0 with
  | none =>
    right; left
    exact ⟨.Transition, .Integer, by simp⟩
  | some t0 =>
    cases hp0 : parseU32 t0 with
    | none =>
      right; right
      exact ⟨.Transition, t0, .Integer, List.get?_mem h0, by
        simp [RadiativeTransitionField.idx, hp0, ← List.get?_eq_getElem?, h0]⟩
    | some trn =>
      cases h1 : (splitWs s).get? 1 with
      | none =>
        right; left
        exact ⟨.UpperLevel, .Integer, by simp [hp0]⟩
      | some t1 =>
        cases hp1 : parseU32 t1 with
        | none =>
          right; right
          exact ⟨.UpperLevel, t1, .Integer, List.get?_mem h1, by
            simp [RadiativeTransitionField.idx, hp0, hp1, ← List.get?_eq_getElem?, h1]⟩
        | some up =>
          cases h2 : (splitWs s).get? 2 with
          | none =>
            right; left
            exact ⟨.LowerLevel, .Integer, by simp [hp0, hp1]⟩
          | some t2 =>
            cases hp2 : parseU32 t2 with
            | none =>
              right; right
              exact ⟨.LowerLevel, t2, .Integer, List.get?_mem h2, by
                simp [RadiativeTransitionField.idx, hp0, hp1, hp2,
                  ← List.get?_eq_getElem?, h2]⟩
            | some low =>
              cases h3 : (splitWs s).get? 3 with
              | none =>
                right; left
                exact ⟨.SpontaneousDecayRate, .Float, by simp [hp0, hp1, hp2]⟩
              | some t3 =>
                cases hp3 : parseF64 t3 with
                | none =>
                  right; right
                  exact ⟨.SpontaneousDecayRate, t3, .Float, List.get?_mem h3, by
                    simp [RadiativeTransitionField.idx, hp0, hp1, hp2, hp3,
                      ← List.get?_eq_getElem?, h3]⟩
                | some ae =>
                  left
                  exact ⟨⟨trn, up, low, ae,
                    trimMatches tailTrim (joinTokensSpace ((splitWs s).drop 4))⟩, by
                      simp [hp0, hp1, hp2, hp3]⟩

theorem CollisionalRates.tailRates_cases (ts : List Str) :
    (∃ vs, CollisionalRates.tailRates ts = .ok vs) ∨
    (∃ v, v ∈ ts ∧ CollisionalRates.tailRates ts =
      .error (.UnknownFormat .RateCoefficients v .Float)) := by
  induction ts with
  | nil => exact Or.inl ⟨[], rfl⟩
  | cons t ts ih =>
    simp only [CollisionalRates.tailRates]
    cases hp : parseF64 t with
    | none =>
      right
      exact ⟨t, List.mem_cons_self t ts, rfl⟩
    | some v =>
      rcases ih with ⟨vs, hvs⟩ | ⟨v', hv', herr⟩
      · left
        rw [hvs]
        exact ⟨v :: vs, rfl⟩
      · right
        rw [herr]
        exact ⟨v', List.mem_cons_of_mem t hv', rfl⟩

theorem collisionalRates_from_str_cases (s : Str) :
    (∃ v, CollisionalRates.from_str s = some (.ok v)) ∨
    (∃ f exp, CollisionalRates.from_str s = some (.error (.MissingField f exp))) ∨
    (∃ f v exp, v ∈ splitWs s ∧
      CollisionalRates.from_str s = some (.error (.UnknownFormat f v exp))) := by
  simp only [CollisionalRates.from_str]
  cases h0 : (splitWs s).get? 0 with
  | none =>
    right; left
    exact ⟨.Transition, .Integer, by simp⟩
  | some t0 =>
    cases hp0 : parseU32 t0 with
    | none =>
      right; right
      exact ⟨.Transition, t0, .Integer, List.get?_mem h0, by
        simp [CollisionalRatesField.idx, hp0, ← List.get?_eq_getElem?, h0]⟩
    | some trn =>
      cases h1 : (splitWs s).get? 1 with
      | none =>
        right; left
        exact ⟨.UpperLevel, .Integer, by simp [hp0]⟩
      | some t1 =>
        cases hp1 : parseU32 t1 with
        | none =>
          right; right
          exact ⟨.UpperLevel, t1, .Integer, List.get?_mem h1, by
            simp [CollisionalRatesField.idx, hp0, hp1, ← List.get?_eq_getElem?, h1]⟩
        | some up =>
          cases h2 : (splitWs s).get? 2 with
          | none =>
            right; left
            exact ⟨.LowerLevel, .Integer, by simp [hp0, hp1]⟩
          | some t2 =>
            cases hp2 : parseU32 t2 with
            | none =>
              right; right
              exact ⟨.LowerLevel, t2, .Integer, List.get?_mem h2, by
                simp [CollisionalRatesField.idx, hp0, hp1, hp2,
                  ← List.get?_eq_getElem?, h2]⟩
            | some low =>
              rcases CollisionalRates.tailRates_cases ((splitWs s).drop 3) with
                ⟨vs, hvs⟩ | ⟨v, hv, herr⟩
              · left
                exact ⟨⟨trn, up, low, vs⟩, by simp [hp0, hp1, hp2, hvs]⟩
              · right; right
                exact ⟨.RateCoefficients, v, .Float,
                  List.drop_subset 3 (splitWs s) hv, by
                    simp [hp0, hp1, hp2, herr]⟩

theorem CollisionalTemperatures.fromTokens_cases (ts : List Str) :
    (∃ vs, CollisionalTemperatures.fromTokens ts = .ok vs) ∨
    (∃ v, v ∈ ts ∧ CollisionalTemperatures.fromTokens ts = .error v) := by
  induction ts with
  | nil => exact Or.inl ⟨[], rfl⟩
  | cons t ts ih =>
    simp only [CollisionalTemperatures.fromTokens]
    cases hp : parseF64 t with
    | none =>
      right
      exact ⟨t, List.mem_cons_self t ts, rfl⟩
    | some v =>
      rcases ih with ⟨vs, hvs⟩ | ⟨v', hv', herr⟩
      · left
        rw [hvs]
        exact ⟨v :: vs, rfl⟩
      · right
        rw [herr]
        exact ⟨v', List.mem_cons_of_mem t hv', rfl⟩

theorem CollisionalTemperatures.from_str_error {s : Str} {v : Str}
    (h : CollisionalTemperatures.from_str s = .error v) : v ∈ splitWs s := by
  rcases CollisionalTemperatures.fromTokens_cases (splitWs s) with ⟨vs, hvs⟩ | ⟨v', hv', herr⟩
  · rw [CollisionalTemperatures.from_str] at h
    rw [hvs] at h
    exact absurd h (by simp)
  · rw [CollisionalTemperatures.from_str] at h
    rw [herr] at h
    simp only [Except.error.injEq] at h
    rw [← h]
    exact hv'

/-! ## Error location invariant -/

theorem ne_nil_length_pos {v : Str} (h : v ≠ []) : 1 ≤ v.length := by
  cases v with
  | nil => exact absurd rfl h
  | cons c cs => simp

theorem parseEnergyLevelLine_isSome (el : Nat × Str) :
    (parseEnergyLevelLine el).isSome := by
  unfold parseEnergyLevelLine
  rcases energyLevel_from_str_cases el.2 with ⟨v, hv⟩ | ⟨f, exp, he⟩ | ⟨f, v, exp, hm, he⟩
  · simp [hv]
  · simp [he]
  · simp [he]

theorem parseEnergyLevelLine_error {lines : List Str} {el : Nat × Str}
    (hel : lines.get? el.1 = some el.2) {e : ParseError}
    (h : parseEnergyLevelLine el = some (.error e)) : errLocated lines e := by
  unfold parseEnergyLevelLine at h
  rcases energyLevel_from_str_cases el.2 with ⟨v, hv⟩ | ⟨f, exp, he⟩ | ⟨f, v, exp, hm, he⟩
  · rw [hv] at h
    simp at h
  · rw [he] at h
    simp only [Option.some.injEq, Except.error.injEq] at h
    rw [← h]
    exact hel
  · rw [he] at h
    simp only [Option.some.injEq, Except.error.injEq] at h
    rw [← h]
    have hne := splitWs_ne_nil hm
    exact ⟨hel, ne_nil_length_pos hne, v, hne, rfl, rfl⟩

theorem parseRadiativeTransitionLine_isSome (el : Nat × Str) :
    (parseRadiativeTransitionLine el).isSome := by
  unfold parseRadiativeTransitionLine
  rcases radiativeTransition_from_str_cases el.2 with ⟨v, hv⟩ | ⟨f, exp, he⟩ | ⟨f, v, exp, hm, he⟩
  · simp [hv]
  · simp [he]
  · simp [he]

theorem parseRadiativeTransitionLine_error {lines : List Str} {el : Nat × Str}
    (hel : lines.get? el.1 = some el.2) {e : ParseError}
    (h : parseRadiativeTransitionLine el = some (.error e)) : errLocated lines e := by
  unfold parseRadiativeTransitionLine at h
  rcases radiativeTransition_from_str_cases el.2 with ⟨v, hv⟩ | ⟨f, exp, he⟩ | ⟨f, v, exp, hm, he⟩
  · rw [hv] at h
    simp at h
  · rw [he] at h
    simp only [Option.some.injEq, Except.error.injEq] at h
    rw [← h]
    exact hel
  · rw [he] at h
    simp only [Option.some.injEq, Except.error.injEq] at h
    rw [← h]
    have hne := splitWs_ne_nil hm
    exact ⟨hel, ne_nil_length_pos hne, v, hne, rfl, rfl⟩

theorem parseCollisionalRatesLine_isSome (el : Nat × Str) :
    (parseCollisionalRatesLine el).isSome := by
  unfold parseCollisionalRatesLine
  rcases collisionalRates_from_str_cases el.2 with ⟨v, hv⟩ | ⟨f, exp, he⟩ | ⟨f, v, exp, hm, he⟩
  · simp [hv]
  · simp [he]
  · simp [he]

theorem parseCollisionalRatesLine_error {lines : List Str} {el : Nat × Str}
    (hel : lines.get? el.1 = some el.2) {e : ParseError}
    (h : parseCollisionalRatesLine el = some (.error e)) : errLocated lines e := by
  unfold parseCollisionalRatesLine at h
  rcases collisionalRates_from_str_cases el.2 with ⟨v, hv⟩ | ⟨f, exp, he⟩ | ⟨f, v, exp, hm, he⟩
  · rw [hv] at h
    simp at h
  · rw [he] at h
    simp only [Option.some.injEq, Except.error.injEq] at h
    rw [← h]
    exact hel
  · rw [he] at h
    simp only [Option.some.injEq, Except.error.injEq] at h
    rw [← h]
    have hne := splitWs_ne_nil hm
    exact ⟨hel, ne_nil_length_pos hne, v, hne, rfl, rfl⟩

/-! ## A specification combinator for parser results -/

theorem presSpec_error {α : Type} {lines : List Str} {Q : α → Prop}
    {e : ParseError} (h : errLocated lines e) :
    presSpec lines Q (some (.error e)) := by
  refine ⟨rfl, ?_, ?_⟩
  · intro e' he'
    simp only [Option.some.injEq, Except.error.injEq] at he'
    rw [← he']
    exact h
  · intro a ha
    simp at ha

theorem presSpec_ok {α : Type} {lines : List Str} {Q : α → Prop}
    {a : α} (h : Q a) : presSpec lines Q (some (.ok a)) := by
  refine ⟨rfl, ?_, ?_⟩
  · intro e' he'
    simp at he'
  · intro a' ha'
    simp only [Option.some.injEq, Except.ok.injEq] at ha'
    rw [← ha']
    exact h

theorem presSpec_bind {α β : Type} {lines : List Str}
    {P : α → Prop} {Q : β → Prop} {m : PRes α} {f : α → PRes β}
    (hm : presSpec lines P m)
    (hf : ∀ a, m = some (.ok a) → P a → presSpec lines Q (f a)) :
    presSpec lines Q (pbind m f) := by
  obtain ⟨h1, h2, h3⟩ := hm
  match m with
  | none => simp at h1
  | some (.error e) => exact presSpec_error (h2 e rfl)
  | some (.ok a) => simpa [pbind] using hf a rfl (h3 a rfl)

theorem nextLine_presSpec (lines : List Str) (prev : Nat) (ls : List (Nat × Str)) :
    presSpec lines (fun st => ls = st.1 :: st.2) (liftExc (nextLine prev ls)) := by
  match ls with
  | [] => exact presSpec_error trivial
  | x :: xs => exact presSpec_ok rfl

theorem validate_presSpec {lines : List Str} {ln : Nat} {line : Str}
    (h : lines.get? ln = some line) :
    presSpec lines (fun _ => True) (ElementData.validate_and_parse_comment ln line) := by
  cases hv : ElementData.validate_and_parse_comment ln line with
  | none =>
    have := validate_comment_isSome ln line
    rw [hv] at this
    simp at this
  | some r =>
    cases r with
    | error e =>
      have := validate_comment_eq_error hv
      rw [this]
      exact presSpec_error h
    | ok c => exact presSpec_ok trivial

theorem takeCollect_presSpec {α : Type} (lines : List Str)
    {f : Nat × Str → PRes α}
    (hfS : ∀ x, (f x).isSome)
    (hfE : ∀ x, lines.get? x.1 = some x.2 →
      ∀ e, f x = some (.error e) → errLocated lines e)
    (n : Nat) {ls : List (Nat × Str)} (hC : goodCursor lines ls) :
    presSpec lines
      (fun pr => pr.1.length = min n ls.length ∧ pr.2 = ls.drop n ∧
        goodCursor lines pr.2)
      (takeCollect n f ls) := by
  refine ⟨takeCollect_isSome hfS n ls, ?_, ?_⟩
  · intro e he
    obtain ⟨x, hx, hfx⟩ := takeCollect_eq_error he
    exact hfE x (hC x hx) e hfx
  · intro pr hpr
    obtain ⟨vs, rest⟩ := pr
    have hok := takeCollect_eq_ok hpr
    exact ⟨hok.1, hok.2, hok.2 ▸ goodCursor_drop n hC⟩

theorem trailingInfo_presSpec (lines : List Str) (npart : Nat) :
    ∀ {ls : List (Nat × Str)}, goodCursor lines ls →
    presSpec lines (fun _ => True) (trailingInfo npart ls) := by
  intro ls
  induction ls with
  | nil =>
    intro _
    exact presSpec_ok trivial
  | cons el rest ih =>
    intro hC
    obtain ⟨hel, hrest⟩ := goodCursor_cons hC
    simp only [trailingInfo]
    split
    · exact ih hrest
    · cases hv : ElementData.validate_and_parse_comment el.1 el.2 with
      | none =>
        have := validate_comment_isSome el.1 el.2
        rw [hv] at this
        simp at this
      | some r =>
        cases r with
        | error e => exact presSpec_error hel
        | ok c => exact presSpec_bind (ih hrest) (fun acc _ _ => presSpec_ok trivial)

theorem partnerLoop_succ_ok_ne_nil {fuel : Nat} {line : Nat × Str}
    {ls : List (Nat × Str)}
    {res : List (CollisionPartnerData × Nat) × (Nat × Str) × List (Nat × Str)}
    (h : partnerLoop (fuel + 1) line ls = some (.ok res)) : ls ≠ [] := by
  intro hls
  subst hls
  simp [partnerLoop, nextLine, liftExc, pbind] at h

theorem partnerLoop_spec (lines : List Str) :
    ∀ (fuel : Nat) (line : Nat × Str) (ls : List (Nat × Str)),
    goodCursor lines ls →
    presSpec lines
      (fun res => goodCursor lines res.2.2 ∧ res.1.length = fuel ∧ ratesFit res.1)
      (partnerLoop fuel line ls) := by
  intro fuel
  induction fuel with
  | zero =>
    intro line ls hC
    exact presSpec_ok ⟨hC, rfl, trivial⟩
  | succ fuel ih =>
    intro line ls hC
    simp only [partnerLoop]
    refine presSpec_bind (nextLine_presSpec lines line.1 ls) ?_
    rintro st1 hst1 hls1
    have h1 := (goodCursor_cons (hls1 ▸ hC)).1
    have hC1 := (goodCursor_cons (hls1 ▸ hC)).2
    refine presSpec_bind (validate_presSpec h1) ?_
    rintro _ _ _
    refine presSpec_bind (nextLine_presSpec lines st1.1.1 st1.2) ?_
    rintro st2 hst2 hls2
    have h2 := (goodCursor_cons (hls2 ▸ hC1)).1
    have hC2 := (goodCursor_cons (hls2 ▸ hC1)).2
    refine presSpec_bind (P := fun _ => True) ?_ ?_
    · split
      · exact presSpec_error h2
      · exact presSpec_ok trivial
    rintro cpn hcpn -
    refine presSpec_bind (nextLine_presSpec lines st2.1.1 st2.2) ?_
    rintro st3 hst3 hls3
    have h3 := (goodCursor_cons (hls3 ▸ hC2)).1
    have hC3 := (goodCursor_cons (hls3 ▸ hC2)).2
    refine presSpec_bind (validate_presSpec h3) ?_
    rintro _ _ _
    refine presSpec_bind (nextLine_presSpec lines st3.1.1 st3.2) ?_
    rintro st4 hst4 hls4
    have h4 := (goodCursor_cons (hls4 ▸ hC3)).1
    have hC4 := (goodCursor_cons (hls4 ▸ hC3)).2
    refine presSpec_bind (P := fun _ => True) ?_ ?_
    · split
      · exact presSpec_error h4
      · exact presSpec_ok trivial
    rintro ncol hncol -
    refine presSpec_bind (nextLine_presSpec lines st4.1.1 st4.2) ?_
    rintro st5 hst5 hls5
    have h5 := (goodCursor_cons (hls5 ▸ hC4)).1
    have hC5 := (goodCursor_cons (hls5 ▸ hC4)).2
    refine presSpec_bind (validate_presSpec h5) ?_
    rintro _ _ _
    refine presSpec_bind (nextLine_presSpec lines st5.1.1 st5.2) ?_
    rintro st6 hst6 hls6
    have h6 := (goodCursor_cons (hls6 ▸ hC5)).1
    have hC6 := (goodCursor_cons (hls6 ▸ hC5)).2
    refine presSpec_bind (P := fun _ => True) ?_ ?_
    · split
      · exact presSpec_error h6
      · exact presSpec_ok trivial
    rintro _ntemp hntemp -
    refine presSpec_bind (nextLine_presSpec lines st6.1.1 st6.2) ?_
    rintro st7 hst7 hls7
    have h7 := (goodCursor_cons (hls7 ▸ hC6)).1
    have hC7 := (goodCursor_cons (hls7 ▸ hC6)).2
    refine presSpec_bind (validate_presSpec h7) ?_
    rintro _ _ _
    refine presSpec_bind (nextLine_presSpec lines st7.1.1 st7.2) ?_
    rintro st8 hst8 hls8
    have h8 := (goodCursor_cons (hls8 ▸ hC7)).1
    have hC8 := (goodCursor_cons (hls8 ▸ hC7)).2
    refine presSpec_bind (P := fun _ => True) ?_ ?_
    · split
      · next v hv =>
        have hmem := CollisionalTemperatures.from_str_error hv
        have hne := splitWs_ne_nil hmem
        exact presSpec_error ⟨h8, ne_nil_length_pos hne, v, hne, rfl, rfl⟩
      · exact presSpec_ok trivial
    rintro temperatures htemps -
    refine presSpec_bind (nextLine_presSpec lines st8.1.1 st8.2) ?_
    rintro st9 hst9 hls9
    have h9 := (goodCursor_cons (hls9 ▸ hC8)).1
    have hC9 := (goodCursor_cons (hls9 ▸ hC8)).2
    refine presSpec_bind (validate_presSpec h9) ?_
    rintro _ _ _
    refine presSpec_bind (takeCollect_presSpec lines parseCollisionalRatesLine_isSome
      (fun x hx e he => parseCollisionalRatesLine_error hx he) ncol hC9) ?_
    rintro rt hrt ⟨hlen, hdrop, hCrt⟩
    refine presSpec_bind (ih st9.1 rt.2 hCrt) ?_
    rintro rec hrec ⟨hCrec, hreclen, hrecfit⟩
    refine presSpec_ok ⟨hCrec, by simp [hreclen], ?_⟩
    cases hrl : rec.1 with
    | nil =>
      have : rt.1.length ≤ ncol := by
        rw [hlen]
        exact Nat.min_le_left _ _
      simpa [ratesFit] using this
    | cons q qs =>
      have hfuel : 1 ≤ fuel := by
        rw [← hreclen, hrl]
        simp
      obtain ⟨fuel', rfl⟩ : ∃ k, fuel = k + 1 := ⟨fuel - 1, by omega⟩
      have hne := partnerLoop_succ_ok_ne_nil hrec
      have hlt : ncol < st9.2.length := by
        by_contra hge
        push_neg at hge
        have hnil : st9.2.drop ncol = [] := List.drop_eq_nil_of_le hge
        rw [← hdrop] at hnil
        exact hne hnil
      have hexact : rt.1.length = ncol := by
        rw [hlen, Nat.min_eq_left (Nat.le_of_lt hlt)]
      simpa [ratesFit] using ⟨hexact, hrl ▸ hrecfit⟩

theorem min_eq_of_drop_cons {n : Nat} {ls rest : List (Nat × Str)} {x : Nat × Str}
    (hdrop : ls.drop n = x :: rest) : min n ls.length = n := by
  refine Nat.min_eq_left ?_
  by_contra hgt
  push_neg at hgt
  rw [List.drop_eq_nil_of_le (Nat.le_of_lt hgt)] at hdrop
  simp at hdrop

theorem zip_proj_eta (l : List (CollisionPartnerData × Nat)) :
    (l.map (fun pr => pr.1)).zip (l.map (fun pr => pr.2)) = l := by
  induction l with
  | nil => rfl
  | cons x xs ih => simp [ih]

/-- The whole-document soundness and bounded-section invariant: parsing
never panics, every error is correctly located, and every success has its
section lengths governed by the declared counts. -/
theorem parseDoc_spec {lines : List Str} {ls0 : List (Nat × Str)}
    (hC : goodCursor lines ls0) :
    presSpec lines (fun pr =>
      pr.2.energy_levels.length = pr.1.nlev ∧
      pr.2.radiative_transitions.length = pr.1.nlin ∧
      pr.2.collision_partners.length = loopTrips pr.1.npart ∧
      pr.1.ncols.length = loopTrips pr.1.npart ∧
      ratesFit (pr.2.collision_partners.zip pr.1.ncols))
      (ElementData.parseDoc ls0) := by
  simp only [ElementData.parseDoc]
  refine presSpec_bind (nextLine_presSpec lines 0 ls0) ?_
  rintro st1 hst1 hls1
  have h1 := (goodCursor_cons (hls1 ▸ hC)).1
  have hC1 := (goodCursor_cons (hls1 ▸ hC)).2
  refine presSpec_bind (validate_presSpec h1) ?_
  rintro _ _ _
  refine presSpec_bind (nextLine_presSpec lines st1.1.1 st1.2) ?_
  rintro st2 hst2 hls2
  have h2 := (goodCursor_cons (hls2 ▸ hC1)).1
  have hC2 := (goodCursor_cons (hls2 ▸ hC1)).2
  refine presSpec_bind (P := fun _ => True) ?_ ?_
  · split
    · exact presSpec_ok trivial
    · next e heq =>
      obtain ⟨en', hen'⟩ := elementName_from_str_ok st2.1.2
      rw [hen'] at heq
      simp at heq
  rintro en hen -
  refine presSpec_bind (nextLine_presSpec lines st2.1.1 st2.2) ?_
  rintro st3 hst3 hls3
  have h3 := (goodCursor_cons (hls3 ▸ hC2)).1
  have hC3 := (goodCursor_cons (hls3 ▸ hC2)).2
  refine presSpec_bind (validate_presSpec h3) ?_
  rintro _ _ _
  refine presSpec_bind (nextLine_presSpec lines st3.1.1 st3.2) ?_
  rintro st4 hst4 hls4
  have h4 := (goodCursor_cons (hls4 ▸ hC3)).1
  have hC4 := (goodCursor_cons (hls4 ▸ hC3)).2
  refine presSpec_bind (P := fun _ => True) ?_ ?_
  · split
    · exact presSpec_error h4
    · exact presSpec_ok trivial
  rintro weight hweight -
  refine presSpec_bind (nextLine_presSpec lines st4.1.1 st4.2) ?_
  rintro st5 hst5 hls5
  have h5 := (goodCursor_cons (hls5 ▸ hC4)).1
  have hC5 := (goodCursor_cons (hls5 ▸ hC4)).2
  refine presSpec_bind (validate_presSpec h5) ?_
  rintro _ _ _
  refine presSpec_bind (nextLine_presSpec lines st5.1.1 st5.2) ?_
  rintro st6 hst6 hls6
  have h6 := (goodCursor_cons (hls6 ▸ hC5)).1
  have hC6 := (goodCursor_cons (hls6 ▸ hC5)).2
  refine presSpec_bind (P := fun _ => True) ?_ ?_
  · split
    · exact presSpec_error h6
    · exact presSpec_ok trivial
  rintro nlev hnlev -
  refine presSpec_bind (nextLine_presSpec lines st6.1.1 st6.2) ?_
  rintro st7 hst7 hls7
  have h7 := (goodCursor_cons (hls7 ▸ hC6)).1
  have hC7 := (goodCursor_cons (hls7 ▸ hC6)).2
  refine presSpec_bind (validate_presSpec h7) ?_
  rintro _ _ _
  refine presSpec_bind (takeCollect_presSpec lines parseEnergyLevelLine_isSome
    (fun x hx e he => parseEnergyLevelLine_error hx he) nlev hC7) ?_
  rintro lv hlv ⟨hlvlen, hlvdrop, hClv⟩
  refine presSpec_bind (nextLine_presSpec lines st7.1.1 lv.2) ?_
  rintro st8 hst8 hls8
  have h8 := (goodCursor_cons (hls8 ▸ hClv)).1
  have hC8 := (goodCursor_cons (hls8 ▸ hClv)).2
  have hlvexact : lv.1.length = nlev := by
    rw [hlvlen]
    exact min_eq_of_drop_cons (hlvdrop ▸ hls8)
  refine presSpec_bind (validate_presSpec h8) ?_
  rintro _ _ _
  refine presSpec_bind (nextLine_presSpec lines st8.1.1 st8.2) ?_
  rintro st9 hst9 hls9
  have h9 := (goodCursor_cons (hls9 ▸ hC8)).1
  have hC9 := (goodCursor_cons (hls9 ▸ hC8)).2
  refine presSpec_bind (P := fun _ => True) ?_ ?_
  · split
    · exact presSpec_error h9
    · exact presSpec_ok trivial
  rintro nlin hnlin -
  refine presSpec_bind (nextLine_presSpec lines st9.1.1 st9.2) ?_
  rintro st10 hst10 hls10
  have h10 := (goodCursor_cons (hls10 ▸ hC9)).1
  have hC10 := (goodCursor_cons (hls10 ▸ hC9)).2
  refine presSpec_bind (validate_presSpec h10) ?_
  rintro _ _ _
  refine presSpec_bind (takeCollect_presSpec lines parseRadiativeTransitionLine_isSome
    (fun x hx e he => parseRadiativeTransitionLine_error hx he) nlin hC10) ?_
  rintro tr htr ⟨htrlen, htrdrop, hCtr⟩
  refine presSpec_bind (nextLine_presSpec lines st10.1.1 tr.2) ?_
  rintro st11 hst11 hls11
  have h11 := (goodCursor_cons (hls11 ▸ hCtr)).1
  have hC11 := (goodCursor_cons (hls11 ▸ hCtr)).2
  have htrexact : tr.1.length = nlin := by
    rw [htrlen]
    exact min_eq_of_drop_cons (htrdrop ▸ hls11)
  refine presSpec_bind (validate_presSpec h11) ?_
  rintro _ _ _
  refine presSpec_bind (nextLine_presSpec lines st11.1.1 st11.2) ?_
  rintro st12 hst12 hls12
  have h12 := (goodCursor_cons (hls12 ▸ hC11)).1
  have hC12 := (goodCursor_cons (hls12 ▸ hC11)).2
  refine presSpec_bind (P := fun _ => True) ?_ ?_
  · split
    · exact presSpec_error h12
    · exact presSpec_ok trivial
  rintro npart hnpart -
  refine presSpec_bind (partnerLoop_spec lines (loopTrips npart) st12.1 st12.2 hC12) ?_
  rintro lp hlp ⟨hClp, hlplen, hlpfit⟩
  refine presSpec_bind (trailingInfo_presSpec lines npart hClp) ?_
  rintro additional hadd -
  refine presSpec_ok ?_
  refine ⟨hlvexact, htrexact, by simp [hlplen], by simp [hlplen], ?_⟩
  simpa [zip_proj_eta] using hlpfit

theorem fromLinesCounts_spec (lines : List Str) :
    presSpec lines (fun pr =>
      pr.2.energy_levels.length = pr.1.nlev ∧
      pr.2.radiative_transitions.length = pr.1.nlin ∧
      pr.2.collision_partners.length = loopTrips pr.1.npart ∧
      pr.1.ncols.length = loopTrips pr.1.npart ∧
      ratesFit (pr.2.collision_partners.zip pr.1.ncols))
      (ElementData.fromLinesCounts lines) :=
  parseDoc_spec (goodCursor_enum lines)

theorem fromLines_isSome (lines : List Str) :
    (ElementData.fromLines lines).isSome := by
  unfold ElementData.fromLines
  exact pbind_isSome (fromLinesCounts_spec lines).1 (fun a => rfl)

theorem fromLines_error_located {lines : List Str} {e : ParseError}
    (h : ElementData.fromLines lines = some (.error e)) : errLocated lines e := by
  unfold ElementData.fromLines at h
  rcases pbind_eq_error h with h1 | ⟨a, ha, h2⟩
  · exact (fromLinesCounts_spec lines).2.1 e h1
  · simp at h2

theorem from_str_error_located {s : Str} {e : ParseError}
    (h : ElementData.from_str s = some (.error e)) : errLocated (rustLines s) e :=
  fromLines_error_located h

theorem from_str_ok_counts {s : Str} {d : ElementData}
    (h : ElementData.from_str s = some (.ok d)) :
    ∃ cts : CountsInfo,
      ElementData.fromLinesCounts (rustLines s) = some (.ok (cts, d)) ∧
      d.energy_levels.length = cts.nlev ∧
      d.radiative_transitions.length = cts.nlin ∧
      d.collision_partners.length = loopTrips cts.npart ∧
      cts.ncols.length = loopTrips cts.npart ∧
      ratesFit (d.collision_partners.zip cts.ncols) := by
  unfold ElementData.from_str ElementData.fromLines at h
  obtain ⟨⟨cts, d'⟩, hpr, h2⟩ := pbind_eq_ok h
  simp only [Option.some.injEq, Except.ok.injEq] at h2
  subst h2
  have hq := (fromLinesCounts_spec (rustLines s)).2.2 _ hpr
  exact ⟨cts, hpr, hq⟩

/-! ## Rendering-analysis lemmas -/

theorem digitChar_isDigit {d : Nat} (h : d < 10) : (digitChar d).isDigit := by
  interval_cases d <;> decide

theorem natToStrGo_mem {c : Char} :
    ∀ {fuel n : Nat} {acc : Str}, c ∈ natToStrGo fuel n acc →
    c ∈ acc ∨ c.isDigit := by
  intro fuel
  induction fuel with
  | zero =>
    intro n acc h
    exact Or.inl h
  | succ fuel ih =>
    intro n acc h
    simp only [natToStrGo] at h
    split at h
    · exact Or.inl h
    · next hne =>
      rcases ih h with hmem | hd
      · rcases List.mem_cons.mp hmem with hcd | hmem2
        · exact Or.inr (hcd ▸ digitChar_isDigit (Nat.mod_lt n (by omega)))
        · exact Or.inl hmem2
      · exact Or.inr hd

theorem natToStr_mem_isDigit {n : Nat} {c : Char} (h : c ∈ natToStr n) :
    c.isDigit := by
  unfold natToStr at h
  split at h
  · simp only [List.mem_singleton] at h
    subst h
    decide
  · rcases natToStrGo_mem h with hmem | hd
    · simp at hmem
    · exact hd

theorem splitOnChar_append_cons (sep : Char) (a rest : Str) (h : sep ∉ a) :
    splitOnChar sep (a ++ sep :: rest) = a :: splitOnChar sep rest := by
  induction a with
  | nil => simp [splitOnChar]
  | cons c cs ih =>
    have hc : (c == sep) = false := by
      simp only [beq_eq_false_iff_ne, ne_eq]
      intro hcs
      exact h (hcs ▸ List.mem_cons_self c cs)
    have hcs : sep ∉ cs := fun hx => h (List.mem_cons_of_mem c hx)
    simp only [List.cons_append, splitOnChar, List.append_eq, ih hcs, hc,
      Bool.false_eq_true, if_false]

theorem renderedLine_one {A B rest : Str} (hA : '\n' ∉ A) (hB : '\n' ∉ B) :
    renderedLine (A ++ '\n' :: (B ++ '\n' :: rest)) 1 = B := by
  unfold renderedLine
  rw [splitOnChar_append_cons _ _ _ hA, splitOnChar_append_cons _ _ _ hB]
  rfl

theorem padLeft_space (col : Nat) :
    padLeft (" ".toList) col = List.replicate (max col 1) ' ' := by
  unfold padLeft
  cases col with
  | zero => rfl
  | succ k =>
    have : max (k + 1) 1 = k + 1 := by omega
    rw [this]
    have hlen : (" ".toList : Str).length = 1 := rfl
    rw [hlen]
    simp only [Nat.add_sub_cancel]
    rw [List.replicate_succ' k ' ']
    rfl

theorem padRightFill_caret (w : Nat) :
    padRightFill ("^".toList) w '^' = List.replicate (max w 1) '^' := by
  unfold padRightFill
  cases w with
  | zero => rfl
  | succ k =>
    have : max (k + 1) 1 = k + 1 := by omega
    rw [this]
    have hlen : ("^".toList : Str).length = 1 := rfl
    rw [hlen]
    simp only [Nat.add_sub_cancel]
    rw [List.replicate_succ]
    rfl

theorem caretStart_append_none {a b : Str} (h : '^' ∉ a) :
    caretStart (a ++ b) = (caretStart b).map (· + a.length) := by
  induction a with
  | nil => simp
  | cons c cs ih =>
    have hcs : '^' ∉ cs := fun hx => h (List.mem_cons_of_mem c hx)
    have hc2 : (c == '^') = false := by
      simp only [beq_eq_false_iff_ne, ne_eq]
      intro hcc
      exact h (hcc ▸ List.mem_cons_self c cs)
    simp only [List.cons_append, caretStart, List.append_eq, hc2,
      Bool.false_eq_true, if_false, ih hcs, List.length_cons]
    cases caretStart b with
    | none => rfl
    | some v =>
      show some (v + cs.length + 1) = some (v + (cs.length + 1))
      rw [Nat.add_assoc]

theorem caretStart_replicate_caret {k : Nat} (h : 1 ≤ k) (rest : Str) :
    caretStart (List.replicate k '^' ++ rest) = some 0 := by
  cases k with
  | zero => omega
  | succ n => simp [List.replicate_succ, caretStart]

theorem caretRunLen_append_none {a b : Str} (h : '^' ∉ a) :
    caretRunLen (a ++ b) = caretRunLen b := by
  unfold caretRunLen
  induction a with
  | nil => simp
  | cons c cs ih =>
    have hc : (c != '^') = true := by
      simp only [bne_iff_ne, ne_eq]
      intro hcc
      exact h (hcc ▸ List.mem_cons_self c cs)
    have hcs : '^' ∉ cs := fun hx => h (List.mem_cons_of_mem c hx)
    simp only [List.cons_append, List.dropWhile_cons, hc, if_true]
    exact ih hcs

theorem caretRun_takeWhile (k : Nat) :
    (List.replicate k '^').takeWhile (fun c => c == '^') = List.replicate k '^' := by
  induction k with
  | zero => rfl
  | succ n ih =>
    rw [List.replicate_succ, List.takeWhile_cons]
    simp [ih]

theorem caretRunLen_replicate (k : Nat) :
    caretRunLen (List.replicate k '^') = k := by
  unfold caretRunLen
  cases k with
  | zero => rfl
  | succ n =>
    rw [List.replicate_succ, List.dropWhile_cons]
    have h1 : (('^' : Char) != '^') = false := by decide
    rw [h1]
    simp only [Bool.false_eq_true, if_false]
    rw [← List.replicate_succ, caretRun_takeWhile, List.length_replicate]

theorem caretStart_replicate {k : Nat} (h : 1 ≤ k) :
    caretStart (List.replicate k '^') = some 0 := by
  cases k with
  | zero => omega
  | succ n => simp [List.replicate_succ, caretStart]

theorem mem_padLeft {c : Char} {s : Str} {w : Nat} (h : c ∈ padLeft s w) :
    c = ' ' ∨ c ∈ s := by
  unfold padLeft at h
  rcases List.mem_append.mp h with h1 | h2
  · exact Or.inl (List.eq_of_mem_replicate h1)
  · exact Or.inr h2

theorem isDigit_ne_newline {c : Char} (h : c.isDigit) : c ≠ '\n' := by
  intro hc
  subst hc
  simp [Char.isDigit] at h

theorem no_newline_render_line1 (ln : Nat) {rest : Str}
    (hrest : '\n' ∉ rest) :
    '\n' ∉ padLeft (natToStr ln) 6 ++ (" | ".toList) ++ rest := by
  intro hmem
  rcases List.mem_append.mp hmem with h1 | h2
  · rcases List.mem_append.mp h1 with h3 | h4
    · rcases mem_padLeft h3 with h5 | h6
      · exact absurd h5 (by decide)
      · exact absurd rfl (isDigit_ne_newline (natToStr_mem_isDigit h6))
    · revert h4
      decide
  · exact hrest h2

theorem no_newline_mapped_tabs {line : Str} (hline : '\n' ∉ line) :
    '\n' ∉ line.map (fun c => if c == '\t' then ' ' else c) := by
  intro hmem
  obtain ⟨c, hc, hceq⟩ := List.mem_map.mp hmem
  by_cases ht : (c == '\t') = true
  · rw [if_pos ht] at hceq
    exact absurd hceq (by decide)
  · rw [if_neg ht] at hceq
    exact hline (hceq ▸ hc)

theorem renderUnknownItem_line2 (ln column w : Nat) {line : Str} (note : Str)
    (hline : '\n' ∉ line) :
    renderedLine (renderUnknownItem ln column w line note) 1 =
      gutterBlank ++ (" | ".toList) ++ List.replicate (max column 1) ' ' ++
        List.replicate (max w 1) '^' := by
  have hshape : renderUnknownItem ln column w line note =
      (padLeft (natToStr ln) 6 ++ (" | ".toList) ++
        line.map (fun c => if c == '\t' then ' ' else c)) ++ '\n' ::
      ((gutterBlank ++ (" | ".toList) ++ List.replicate (max column 1) ' ' ++
        List.replicate (max w 1) '^') ++ '\n' ::
       (gutterBlank ++ (" = ".toList) ++ note ++ ['.', '\n'])) := by
    unfold renderUnknownItem
    rw [padLeft_space, padRightFill_caret]
    simp [List.append_assoc]
  have hA := no_newline_render_line1 ln (no_newline_mapped_tabs hline)
  have hB : '\n' ∉ gutterBlank ++ (" | ".toList) ++
      List.replicate (max column 1) ' ' ++ List.replicate (max w 1) '^' := by
    intro hmem
    rcases List.mem_append.mp hmem with h1 | h2
    · rcases List.mem_append.mp h1 with h3 | h4
      · rcases List.mem_append.mp h3 with h5 | h6
        · revert h5
          decide
        · revert h6
          decide
      · exact absurd (List.eq_of_mem_replicate h4) (by decide)
    · exact absurd (List.eq_of_mem_replicate h2) (by decide)
  rw [hshape, renderedLine_one hA hB]

theorem caret_no_caret_prefix (column : Nat) :
    '^' ∉ gutterBlank ++ (" | ".toList) ++ List.replicate (max column 1) ' ' := by
  intro hmem
  rcases List.mem_append.mp hmem with h1 | h2
  · rcases List.mem_append.mp h1 with h3 | h4
    · revert h3
      decide
    · revert h4
      decide
  · exact absurd (List.eq_of_mem_replicate h2) (by decide)

theorem renderUnknownItem_caret (ln column w : Nat) {line : Str} (note : Str)
    (hline : '\n' ∉ line) (hcol : 1 ≤ column) (hw : 1 ≤ w) :
    caretStart (renderedLine (renderUnknownItem ln column w line note) 1) =
      some (9 + column) ∧
    caretRunLen (renderedLine (renderUnknownItem ln column w line note) 1) = w := by
  rw [renderUnknownItem_line2 ln column w note hline]
  have hassoc : gutterBlank ++ (" | ".toList) ++ List.replicate (max column 1) ' ' ++
      List.replicate (max w 1) '^' =
      (gutterBlank ++ (" | ".toList) ++ List.replicate (max column 1) ' ') ++
      List.replicate (max w 1) '^' := by
    simp [List.append_assoc]
  rw [hassoc]
  have hP := caret_no_caret_prefix column
  have hlenP : (gutterBlank ++ (" | ".toList) ++
      List.replicate (max column 1) ' ').length = 9 + column := by
    simp [gutterBlank, padLeft]
    omega
  constructor
  · rw [caretStart_append_none hP, caretStart_replicate (by omega), hlenP]
    simp
  · rw [caretRunLen_append_none hP, caretRunLen_replicate]
    omega

theorem renderMissingField_line2 (ln : Nat) {line : Str} (note : Str)
    (hline : '\n' ∉ line) :
    renderedLine (renderMissingField ln line note) 1 =
      gutterBlank ++ (" | ".toList) ++ List.replicate (max line.length 1) ' ' ++
        [' '] ++ List.replicate 6 '^' := by
  have hshape : renderMissingField ln line note =
      (padLeft (natToStr ln) 6 ++ (" | ".toList) ++ line) ++ '\n' ::
      ((gutterBlank ++ (" | ".toList) ++ List.replicate (max line.length 1) ' ' ++
        [' '] ++ List.replicate 6 '^') ++ '\n' ::
       (gutterBlank ++ (" = ".toList) ++ note ++ ['.', '\n'])) := by
    unfold renderMissingField
    rw [padLeft_space]
    have h6 : padRightFill ("^".toList) 6 '^' = List.replicate 6 '^' := by decide
    rw [h6]
    simp [List.append_assoc]
  have hA := no_newline_render_line1 ln hline
  have hB : '\n' ∉ gutterBlank ++ (" | ".toList) ++
      List.replicate (max line.length 1) ' ' ++ [' '] ++ List.replicate 6 '^' := by
    intro hmem
    rcases List.mem_append.mp hmem with h1 | h2
    · rcases List.mem_append.mp h1 with h3 | h4
      · rcases List.mem_append.mp h3 with h5 | h6
        · rcases List.mem_append.mp h5 with h7 | h8
          · revert h7
            decide
          · revert h8
            decide
        · exact absurd (List.eq_of_mem_replicate h6) (by decide)
      · revert h4
        decide
    · exact absurd (List.eq_of_mem_replicate h2) (by decide)
  rw [hshape, renderedLine_one hA hB]

theorem renderMissingField_caret (ln : Nat) {line : Str} (note : Str)
    (hline : '\n' ∉ line) :
    caretStart (renderedLine (renderMissingField ln line note) 1) =
      some (10 + max line.length 1) ∧
    caretRunLen (renderedLine (renderMissingField ln line note) 1) = 6 := by
  rw [renderMissingField_line2 ln note hline]
  have hassoc : gutterBlank ++ (" | ".toList) ++
      List.replicate (max line.length 1) ' ' ++ [' '] ++ List.replicate 6 '^' =
      (gutterBlank ++ (" | ".toList) ++ List.replicate (max line.length 1) ' ' ++
        [' ']) ++ List.replicate 6 '^' := by
    simp [List.append_assoc]
  rw [hassoc]
  have hP : '^' ∉ gutterBlank ++ (" | ".toList) ++
      List.replicate (max line.length 1) ' ' ++ [' '] := by
    intro hmem
    rcases List.mem_append.mp hmem with h1 | h2
    · exact caret_no_caret_prefix line.length h1
    · revert h2
      decide
  have hlenP : (gutterBlank ++ (" | ".toList) ++
      List.replicate (max line.length 1) ' ' ++ [' ']).length =
      10 + max line.length 1 := by
    simp [gutterBlank, padLeft]
    omega
  constructor
  · rw [caretStart_append_none hP, caretStart_replicate (by omega), hlenP]
    simp
  · rw [caretRunLen_append_none hP, caretRunLen_replicate]

theorem splitOnChar_mem_not_sep {sep : Char} :
    ∀ {s t : Str}, t ∈ splitOnChar sep s → sep ∉ t := by
  intro s
  induction s with
  | nil =>
    intro t ht
    simp only [splitOnChar, List.mem_singleton] at ht
    subst ht
    simp
  | cons c cs ih =>
    intro t ht
    simp only [splitOnChar] at ht
    by_cases hc : (c == sep) = true
    · rw [if_pos hc] at ht
      rcases List.mem_cons.mp ht with rfl | ht2
      · simp
      · exact ih ht2
    · rw [if_neg (by simp [hc])] at ht
      have hcne : c ≠ sep := by
        simp only [beq_iff_eq] at hc
        exact hc
      cases hr : splitOnChar sep cs with
      | nil =>
        rw [hr] at ht
        simp only [List.mem_singleton] at ht
        subst ht
        simp only [List.mem_singleton]
        exact fun hx => hcne hx.symm
      | cons u us =>
        rw [hr] at ht
        rcases List.mem_cons.mp ht with rfl | ht2
        · intro hmem
          rcases List.mem_cons.mp hmem with hx | hx
          · exact hcne hx.symm
          · exact ih (hr ▸ List.mem_cons_self u us) hx
        · exact ih (hr ▸ List.mem_cons_of_mem u ht2)

theorem rustLines_no_newline {s t : Str} (h : t ∈ rustLines s) : '\n' ∉ t := by
  unfold rustLines at h
  match s with
  | [] => simp at h
  | c :: cs =>
    simp only at h
    obtain ⟨t', ht', hmap⟩ := List.mem_map.mp h
    have ht'' : t' ∈ splitOnChar '\n' (c :: cs) := by
      split at ht'
      · exact List.dropLast_subset _ ht'
      · exact ht'
    have hns := splitOnChar_mem_not_sep ht''
    intro hmem
    rw [← hmap] at hmem
    unfold stripTrailingCr at hmem
    split at hmem
    · exact hns (List.dropLast_subset _ hmem)
    · exact hns hmem

/-! ## Claim theorems -/

/-- Claim C1, counterexample: a document whose single partner declares 2
collisional rate rows but provides only 1, with nothing after them, parses
`Ok` — yet the partner's rates length is 1, not the declared 2.  The final
`take(ncol)` can come up short with no subsequent read to detect it. -/
theorem claim_C1_counterexample :
    (ElementData.fromLinesCounts (rustLines (unlines truncatedRatesDoc))).map
      (fun r => r.map (fun pr =>
        (pr.1.ncols, pr.2.collision_partners.map (fun p => p.rates.length)))) =
    some (.ok ([2], [1])) ∧ (1 : Nat) ≠ 2 := by decide

/-- Claim C1 (amended): on every `Ok` parse, `energy_levels`,
`radiative_transitions` and `collision_partners` have exactly the declared
lengths (`collision_partners` length is `loopTrips npart`, which equals
`npart` except at the wrapping value `u32::MAX`), every non-final partner's
rates list has exactly its declared `ncol` length, and the final partner's
has at most its declared length. -/
theorem claim_C1_amended {s : Str} {d : ElementData}
    (h : ElementData.from_str s = some (.ok d)) :
    ∃ cts : CountsInfo,
      ElementData.fromLinesCounts (rustLines s) = some (.ok (cts, d)) ∧
      d.energy_levels.length = cts.nlev ∧
      d.radiative_transitions.length = cts.nlin ∧
      d.collision_partners.length = loopTrips cts.npart ∧
      cts.ncols.length = loopTrips cts.npart ∧
      ratesFit (d.collision_partners.zip cts.ncols) :=
  from_str_ok_counts h

/-- Witness for C1's amended theorem at the zero-count document. -/
theorem claim_C1_witness :
    ElementData.from_str (unlines zeroCountsDoc) = some (.ok zeroCountsElement) ∧
    ∃ cts : CountsInfo,
      ElementData.fromLinesCounts (rustLines (unlines zeroCountsDoc)) =
        some (.ok (cts, zeroCountsElement)) ∧
      zeroCountsElement.energy_levels.length = cts.nlev ∧
      zeroCountsElement.radiative_transitions.length = cts.nlin ∧
      zeroCountsElement.collision_partners.length = loopTrips cts.npart ∧
      cts.ncols.length = loopTrips cts.npart ∧
      ratesFit (zeroCountsElement.collision_partners.zip cts.ncols) :=
  ⟨by decide, claim_C1_amended (by decide)⟩

/-- Claim C2, counterexample: on the input `"x"` the offending line is the
first physical line (1-based position 1), but the error carries
`line_number = 0` — the parser enumerates lines from 0. -/
theorem claim_C2_counterexample :
    ElementData.from_str ("x".toList) =
      some (.error (.WrongCommentFormat 0 ("x".toList) wrongCommentNote)) ∧
    rustLines ("x".toList) = [("x".toList)] ∧
    (0 : Nat) ≠ 1 := by decide

/-- Claim C2 (amended): for every error carrying an offending line
(`WrongCommentFormat`, `MissingField`, `NotFloat`, `NotInt`,
`UnknownItem`, `UnknownCollisionPartner`), the carried `line_number` is the
0-based position (1-based minus one) of the offending physical line:
indexing the physical lines at `line_number` yields exactly the carried
line text. -/
theorem claim_C2_amended {s : Str} {e : ParseError}
    (h : ElementData.from_str s = some (.error e)) :
    ∀ (ln : Nat) (txt note : Str),
      (e = .WrongCommentFormat ln txt note ∨ e = .MissingField ln txt note ∨
       e = .NotFloat ln txt note ∨ e = .NotInt ln txt note ∨
       e = .UnknownCollisionPartner ln txt note ∨
       ∃ col w, e = .UnknownItem ln col w txt note) →
      (rustLines s).get? ln = some txt := by
  intro ln txt note hcase
  have hloc := from_str_error_located h
  rcases hcase with rfl | rfl | rfl | rfl | rfl | ⟨col, w, rfl⟩
  · exact hloc
  · exact hloc
  · exact hloc
  · exact hloc
  · exact hloc
  · exact hloc.1

/-- Witness for C2's amended theorem at the input `"x"`. -/
theorem claim_C2_witness :
    (rustLines ("x".toList)).get? 0 = some ("x".toList) :=
  claim_C2_amended (s := ("x".toList))
    (e := .WrongCommentFormat 0 ("x".toList) wrongCommentNote)
    (by decide) 0 ("x".toList) wrongCommentNote (Or.inl rfl)

/-- Claim C4, counterexample: `ElementName::from_str "x 'q'"` keeps the
quotes in the trailing text — the trim set is `' '`, `'!'`, `'\n'` only, so
quote characters are not trimmed as the claim states. -/
theorem claim_C4_counterexample :
    ElementName.from_str ("x 'q'".toList) =
      .ok ⟨("x".toList), ("'q'".toList)⟩ ∧
    ("'q'".toList : Str) ≠ ("q".toList) := by decide

/-- Claim C4 (amended): `ElementName::from_str` returns `Ok` on every input
and computes exactly the split-at-first-space result described by
`elementNameSpecFn`: the separator is the space character only, the trim
set of the trailing text is space, `!` and newline (quotes are kept), and
with no space present the whole untrimmed line becomes the name. -/
theorem claim_C4_amended (s : Str) :
    ElementName.from_str s = .ok (elementNameSpecFn s) := by
  unfold ElementName.from_str elementNameSpecFn
  cases h : splitOnceSpace (rustTrim s) with
  | none => simp [trimMatches, dropTrailing]
  | some pr => simp

/-- Claim C8: a declared count of zero is not an error — the bounded
repetition at count 0 yields an empty sequence and leaves the cursor
untouched, the partner loop at 0 partners runs zero iterations, and the
all-zero document parses to a document with empty level, transition and
partner sequences. -/
theorem claim_C8 :
    (∀ (α : Type) (f : Nat × Str → PRes α) (ls : List (Nat × Str)),
      takeCollect 0 f ls = some (.ok ([], ls))) ∧
    (∀ (line : Nat × Str) (ls : List (Nat × Str)),
      partnerLoop 0 line ls = some (.ok ([], line, ls))) ∧
    ElementData.from_str (unlines zeroCountsDoc) =
      some (.ok zeroCountsElement) ∧
    zeroCountsElement.energy_levels = [] ∧
    zeroCountsElement.radiative_transitions = [] ∧
    zeroCountsElement.collision_partners = [] := by
  refine ⟨fun α f ls => rfl, fun line ls => rfl, by decide, rfl, rfl, rfl⟩

/-- Claim C9: the comment lines `"!  text   "` and `"! text"` both parse to
the same trimmed text `"text"`. -/
theorem claim_C9 :
    Comment.from_str ("!  text   ".toList) = .ok ⟨("text".toList)⟩ ∧
    Comment.from_str ("! text".toList) = .ok ⟨("text".toList)⟩ := by decide

/-- Claim C10: `ElementData::from_str` is total — it never reaches the
`panic!` after the element name, the `expect` inside
`validate_and_parse_comment`, or the token re-location `unwrap`s: the model
(where `none` is a panic) always returns `some` (an `Ok` or an `Err`). -/
theorem claim_C10 (s : Str) : (ElementData.from_str s).isSome :=
  fromLines_isSome (rustLines s)

/-- Claim C3, counterexample: the valid two-partner document has 32 lines;
its truncation (final partner block removed) has 22 lines, so the line
immediately following the last line present is number 23 (1-based).  The
parser instead reports `NotEnoughInput` with line number 21 — neither the
1-based nor the 0-based number of the following line. -/
theorem claim_C3_counterexample :
    isOkResult (ElementData.from_str (unlines twoPartnerDoc)) = true ∧
    twoPartnerDocTruncated.length = 22 ∧
    ElementData.from_str (unlines twoPartnerDocTruncated) =
      some (.error (.NotEnoughInput 21)) ∧
    (21 : Nat) ≠ 22 + 1 ∧ (21 : Nat) ≠ 22 := by decide

/-- Claim C3 (amended): removing the final collision-partner block from the
otherwise valid document yields `NotEnoughInput`, but its line number is
one plus the 0-based index of the last line the cursor fetched directly —
the rates-header comment of the last remaining partner (index 20 here,
giving 21) — because the `take`-driven rate rows do not advance the `line`
variable.  It is not the number of the line following the last line
present. -/
theorem claim_C3_amended :
    isOkResult (ElementData.from_str (unlines twoPartnerDoc)) = true ∧
    ElementData.from_str (unlines twoPartnerDocTruncated) =
      some (.error (.NotEnoughInput 21)) ∧
    twoPartnerDocTruncated.get? 20 = some ("!c".toList) ∧
    (21 : Nat) = 20 + 1 := by decide

/-- Claim C5, counterexample: a level line whose offending token sits at
byte offset 0 (`"x 2 3"`): the parser records `column = 0`, but the
rendered caret sits at index 10 of the caret line — one column to the right
of the claimed 9 + 0, because the Rust column padding `{:>0}` of `" "`
still emits one space. -/
theorem claim_C5_counterexample :
    ElementData.from_str (unlines (singleLevelDoc ("x 2 3".toList))) =
      some (.error (.UnknownItem 7 0 1 ("x 2 3".toList)
        (unknownItemNote ("x".toList) (EnergyLevelField.display .Level)
          (ExpectedFieldValue.display .Integer)))) ∧
    caretStart (renderedLine (renderUnknownItem 7 0 1 ("x 2 3".toList)
      (unknownItemNote ("x".toList) (EnergyLevelField.display .Level)
        (ExpectedFieldValue.display .Integer))) 1) = some 10 ∧
    (10 : Nat) ≠ 9 + 0 := by decide

/-- Claim C5 (amended): for every `UnknownItem` diagnostic produced by
`ElementData::from_str` whose recorded column is at least 1, the column is
the first-occurrence offset of the offending literal in the offending line,
the caret run on the second rendered line starts exactly at that offset
(9 gutter columns plus `column`), and its width equals the literal's
length.  (At column 0 the caret is shifted one column right, see the
counterexample.) -/
theorem claim_C5_amended {s : Str} {ln col w : Nat} {line note : Str}
    (h : ElementData.from_str s =
      some (.error (.UnknownItem ln col w line note)))
    (hcol : 1 ≤ col) :
    (∃ v : Str, v ≠ [] ∧ col = (findSub line v).getD 0 ∧ w = v.length) ∧
    caretStart (renderedLine (renderUnknownItem ln col w line note) 1) =
      some (9 + col) ∧
    caretRunLen (renderedLine (renderUnknownItem ln col w line note) 1) = w := by
  have hloc := from_str_error_located h
  simp only [errLocated] at hloc
  obtain ⟨hget, hw, hv⟩ := hloc
  have hnl : '\n' ∉ line := rustLines_no_newline (List.get?_mem hget)
  have hc := renderUnknownItem_caret ln col w note hnl hcol hw
  exact ⟨hv, hc.1, hc.2⟩

/-- Witness for C5's amended theorem: the level line `" x 2 3"` puts the
offending token at offset 1. -/
theorem claim_C5_witness :
    (∃ v : Str, v ≠ [] ∧ (1 : Nat) = (findSub (" x 2 3".toList) v).getD 0 ∧
      (1 : Nat) = v.length) ∧
    caretStart (renderedLine (renderUnknownItem 7 1 1 (" x 2 3".toList)
      (unknownItemNote ("x".toList) (EnergyLevelField.display .Level)
        (ExpectedFieldValue.display .Integer))) 1) = some (9 + 1) ∧
    caretRunLen (renderedLine (renderUnknownItem 7 1 1 (" x 2 3".toList)
      (unknownItemNote ("x".toList) (EnergyLevelField.display .Level)
        (ExpectedFieldValue.display .Integer))) 1) = 1 :=
  claim_C5_amended
    (s := unlines (singleLevelDoc (" x 2 3".toList)))
    (by decide) (by decide)

/-- Claim C6, counterexample: the level line `"1 2 "` (trailing space) has
visible text `"1 2"` ending at offset 3, so "one past the end of the
visible text" is column 9 + 3 (or 9 + 4 on the other reading); the rendered
caret run actually starts at index 14 = 9 + raw length 4 + 1, because the
renderer uses the raw line length (trailing whitespace included) plus a
separating space, and prints six carets. -/
theorem claim_C6_counterexample :
    ElementData.from_str (unlines missingFieldDoc) =
      some (.error (.MissingField 7 ("1 2 ".toList)
        (missingFieldNote (EnergyLevelField.display .StatisticalWeight)
          (ExpectedFieldValue.display .Float)))) ∧
    caretStart (renderedLine (renderMissingField 7 ("1 2 ".toList)
      (missingFieldNote (EnergyLevelField.display .StatisticalWeight)
        (ExpectedFieldValue.display .Float))) 1) = some 14 ∧
    (14 : Nat) ≠ 9 + 3 ∧ (14 : Nat) ≠ 9 + 4 := by decide

/-- Claim C6 (amended): every rendered `MissingField` diagnostic uses the
fixed 6-character blank gutter on its caret line, and the caret run (six
caret characters, the `{:^<6}` fill of `"^"`) starts at offset
`max (line length) 1 + 1` past the gutter-and-separator prefix — one blank
column after the full raw line text, whose length includes any trailing
whitespace. -/
theorem claim_C6_amended (ln : Nat) (line note : Str) (hline : '\n' ∉ line) :
    renderedLine (renderMissingField ln line note) 1 =
      List.replicate 6 ' ' ++ (" | ".toList) ++
        List.replicate (max line.length 1) ' ' ++ [' '] ++
        List.replicate 6 '^' ∧
    caretStart (renderedLine (renderMissingField ln line note) 1) =
      some (10 + max line.length 1) ∧
    caretRunLen (renderedLine (renderMissingField ln line note) 1) = 6 := by
  have h2 := renderMissingField_line2 ln note hline
  have hc := renderMissingField_caret ln note hline
  refine ⟨?_, hc.1, hc.2⟩
  rw [h2]
  have hg : gutterBlank = List.replicate 6 ' ' := by decide
  rw [hg]

/-- Witness for C6's amended theorem at the line `"1 2 "`. -/
theorem claim_C6_witness :
    renderedLine (renderMissingField 7 ("1 2 ".toList) ("note".toList)) 1 =
      List.replicate 6 ' ' ++ (" | ".toList) ++
        List.replicate (max ("1 2 ".toList : Str).length 1) ' ' ++ [' '] ++
        List.replicate 6 '^' ∧
    caretStart (renderedLine (renderMissingField 7 ("1 2 ".toList)
      ("note".toList)) 1) = some (10 + max ("1 2 ".toList : Str).length 1) ∧
    caretRunLen (renderedLine (renderMissingField 7 ("1 2 ".toList)
      ("note".toList)) 1) = 6 :=
  claim_C6_amended 7 ("1 2 ".toList) ("note".toList) (by decide)

/-- Claim C7, counterexample: the claim quantifies over every level line
with exactly two whitespace-separated tokens, but a line such as `"a b"`
(first token not an integer) fails with `UnknownItem`, not `MissingField`:
field-format errors take precedence over the missing third field. -/
theorem claim_C7_counterexample :
    ElementData.fromLines (singleLevelDoc ("a b".toList)) =
      some (.error (.UnknownItem 7 0 1 ("a b".toList)
        (unknownItemNote ("a".toList) (EnergyLevelField.display .Level)
          (ExpectedFieldValue.display .Integer)))) ∧
    (∀ e : ParseError,
      some (.error e) = ElementData.fromLines (singleLevelDoc ("a b".toList)) →
      e ≠ .MissingField 7 ("a b".toList)
        (missingFieldNote (EnergyLevelField.display .StatisticalWeight)
          (ExpectedFieldValue.display .Float))) := by
  constructor
  · decide
  · intro e he
    have : e = .UnknownItem 7 0 1 ("a b".toList)
        (unknownItemNote ("a".toList) (EnergyLevelField.display .Level)
          (ExpectedFieldValue.display .Integer)) := by
      have hres : ElementData.fromLines (singleLevelDoc ("a b".toList)) =
          some (.error (.UnknownItem 7 0 1 ("a b".toList)
            (unknownItemNote ("a".toList) (EnergyLevelField.display .Level)
              (ExpectedFieldValue.display .Integer)))) := by decide
      rw [hres] at he
      simp only [Option.some.injEq, Except.error.injEq] at he
      exact he
    subst this
    decide

/-- Claim C7 (amended): for every energy-level line with exactly two
whitespace-separated tokens whose first token parses as an unsigned
integer and whose second is a valid float literal, parsing the document
fails at that line with `MissingField` whose note names the field
`statistical weight`. -/
theorem claim_C7_amended (lvl t1 t2 : Str) (m : Nat)
    (hsplit : splitWs lvl = [t1, t2])
    (h1 : parseU32 t1 = some m)
    (h2 : isValidF64 t2 = true) :
    ElementData.fromLines (singleLevelDoc lvl) =
      some (.error (.MissingField 7 lvl
        (missingFieldNote (EnergyLevelField.display .StatisticalWeight)
          (ExpectedFieldValue.display .Float)))) ∧
    EnergyLevelField.display .StatisticalWeight =
      ("statistical weight".toList) := by
  refine ⟨?_, by decide⟩
  have hel : EnergyLevel.from_str lvl =
      some (.error (.MissingField .StatisticalWeight .Float)) := by
    simp only [EnergyLevel.from_str, hsplit]
    simp [h1, parseF64, h2]
  have hpel : parseEnergyLevelLine (7, lvl) =
      some (.error (.MissingField 7 lvl
        (missingFieldNote (EnergyLevelField.display .StatisticalWeight)
          (ExpectedFieldValue.display .Float)))) := by
    simp [parseEnergyLevelLine, hel]
  have hstep : enumFrom 0 (singleLevelDoc lvl) =
      (0, ("!c".toList)) :: (1, ("NAME".toList)) :: (2, ("!c".toList)) ::
      (3, ("1.0".toList)) :: (4, ("!c".toList)) :: (5, ("1".toList)) ::
      (6, ("!c".toList)) :: [(7, lvl)] := rfl
  have hv0 : ∀ ln, ln = 0 ∨ ln = 2 ∨ ln = 4 ∨ ln = 6 →
      ElementData.validate_and_parse_comment ln ("!c".toList) =
        some (.ok ⟨("c".toList)⟩) := by
    rintro ln (rfl | rfl | rfl | rfl) <;> decide
  have hnm : ElementName.from_str ("NAME".toList) =
      .ok ⟨("NAME".toList), []⟩ := by decide
  have hwt : parseF64 (rustTrim ("1.0".toList)) = some ⟨("1.0".toList)⟩ := by
    decide
  have hcnt : NumberOfEnergyLevels.from_str ("1".toList) = some 1 := by decide
  unfold ElementData.fromLines ElementData.fromLinesCounts
  rw [hstep]
  simp only [ElementData.parseDoc, nextLine, liftExc, pbind_ok_eq,
    hv0 0 (by omega), hv0 2 (by omega), hv0 4 (by omega), hv0 6 (by omega),
    hnm, hwt, hcnt, takeCollect, hpel, pbind_error_eq]

/-- Witness for C7's amended theorem at the level line `"1 2.0"`. -/
theorem claim_C7_witness :
    (ElementData.fromLines (singleLevelDoc ("1 2.0".toList)) =
      some (.error (.MissingField 7 ("1 2.0".toList)
        (missingFieldNote (EnergyLevelField.display .StatisticalWeight)
          (ExpectedFieldValue.display .Float)))) ∧
    EnergyLevelField.display .StatisticalWeight =
      ("statistical weight".toList)) :=
  claim_C7_amended ("1 2.0".toList) ("1".toList) ("2.0".toList) 1
    (by decide) (by decide) (by decide)
